import Mathlib

/-!
Verification development for the image patch-crop / line-rendering module
(`src/image.py`) of the BrysonGray/tractography repository.

The Python code is shallowly embedded:

* tensors are total functions from integer indices to real values, together
  with explicit shape fields;
* Python slice semantics (negative indices wrap, everything is clamped) are
  modelled by `pyIdx` / `pyLen`;
* `int(...)` truncation toward zero is `pyInt`;
* fallible operations (torch raising `RuntimeError` / `IndexError` on a
  shape-mismatched copy or an out-of-range index) return `Option`, with
  `none` for the exception;
* float arithmetic is idealised as real arithmetic.  The one place where the
  source divides by a quantity that can be zero with float semantics
  (`direction / segment_length` for a zero-length segment, which produces NaN
  and then crashes in the NaN-to-int cast / indexing) is modelled as a
  failing run, with a comment at the definition.
-/

/-- Python `int(x)` truncation toward zero (src/image.py:53, 82, 129, 130). -/
noncomputable def pyInt (x : ℝ) : ℤ := if 0 ≤ x then ⌊x⌋ else -⌊-x⌋

/-- Normalisation of one end of a Python slice `a` on an axis of length `n`:
negative indices count from the end, and the result is clamped to `[0, n]`. -/
def pyIdx (n a : ℤ) : ℤ := if a < 0 then max (n + a) 0 else min a n

/-- Length of the Python slice `a:b` on an axis of length `n`. -/
def pyLen (n a b : ℤ) : ℤ := max (pyIdx n b - pyIdx n a) 0

/-- Low-side pad amount for one axis of `Image.crop`
(`zpad_top` / `ypad_front` / `xpad_left`, src/image.py:59-60, 63-64, 67-68). -/
def padLo (c r : ℤ) : ℤ := if c - r < 0 then r - c else 0

/-- High-side pad amount for one axis of `Image.crop`
(`zpad_btm` / `ypad_back` / `xpad_right`, src/image.py:57-58, 61-62, 65-66). -/
def padHi (n c r : ℤ) : ℤ := if c + r > n - 1 then c + r - (n - 1) else 0

/-- Start bound of the valid-region slice taken from `self.data` on one axis:
`i - zrmd_top` with `zrmd_top = radius - zpad_top` (src/image.py:71-73). -/
def sliceLo (c r : ℤ) : ℤ := c - (r - padLo c r)

/-- Stop bound (exclusive) of the valid-region slice on one axis:
`i + zrmd_btm + 1` with `zrmd_btm = radius - zpad_btm` (src/image.py:71-73). -/
def sliceHi (n c r : ℤ) : ℤ := c + (r - padHi n c r) + 1

/-- Length of the valid-region view `self.data[..., lo:hi, ...]` actually
produced by Python slicing on one axis (src/image.py:73). -/
def srcLen (n c r : ℤ) : ℤ := pyLen n (sliceLo c r) (sliceHi n c r)

/-- First index of `self.data` covered by the valid-region view on one axis. -/
def srcBase (n c r : ℤ) : ℤ := pyIdx n (sliceLo c r)

/-- Length of the target slice `patch_[..., zpad_top : patch_size - zpad_btm,
...]` of the freshly allocated padded patch (src/image.py:78). -/
def tgtLen (n c r : ℤ) : ℤ :=
  pyLen (2 * r + 1) (padLo c r) (2 * r + 1 - padHi n c r)

/-- First index of the padded patch covered by the target slice. -/
def tgtBase (c r : ℤ) : ℤ := pyIdx (2 * r + 1) (padLo c r)

/-- The copy `patch_[...] = patch` (src/image.py:78) succeeds on one axis iff
the source length equals the target length, or the source length is 1 (torch
broadcasts a size-1 axis); otherwise torch raises a shape-mismatch error. -/
def axisOk (n c r : ℤ) : Prop := srcLen n c r = tgtLen n c r ∨ srcLen n c r = 1

instance (n c r : ℤ) : Decidable (axisOk n c r) := by
  unfold axisOk; infer_instance

/-- A real-valued point, one coordinate per spatial axis (3-D). -/
structure P3 where
  x : ℝ
  y : ℝ
  z : ℝ

/-- An integer index triple. -/
structure I3 where
  x : ℤ
  y : ℤ
  z : ℤ
deriving DecidableEq

/-- The padding vector returned by the 3-D branch of `Image.crop`
(`[zpad_top, zpad_btm, ypad_front, ypad_back, xpad_left, xpad_right]`,
src/image.py:70). -/
structure Pad6 where
  zt : ℤ
  zb : ℤ
  yf : ℤ
  yb : ℤ
  xl : ℤ
  xr : ℤ
deriving DecidableEq

/-- The `Image` class, 3-D flavour: channel-first data `(c, h, w, d)` plus the
per-axis pixel spacing `dx` (src/image.py:29-33). `data` is total over ℤ
indices; `n1, n2, n3` record the spatial shape. -/
structure Image3 where
  C : ℕ
  n1 : ℤ
  n2 : ℤ
  n3 : ℤ
  data : ℤ → ℤ → ℤ → ℤ → ℝ
  dx : ℝ × ℝ × ℝ

/-- A cropped patch (3-D): either a view of the source data (`pad=False`;
`b1,b2,b3` are the offsets of the view into the source) or an owned padded
buffer (`pad=True`; the `b` fields are 0).  `l1,l2,l3` are the spatial
lengths. -/
structure Patch3 where
  C : ℕ
  l1 : ℤ
  l2 : ℤ
  l3 : ℤ
  b1 : ℤ
  b2 : ℤ
  b3 : ℤ
  val : ℤ → ℤ → ℤ → ℤ → ℝ

/-- `Image.crop`, 3-D branch (src/image.py:52-79, 106).  Returns `none` when
the padded-copy assignment `patch_[...] = patch` would raise a torch shape
error.  The `pad=False` branch never raises: Python slicing alone cannot
fail. -/
noncomputable def Image3.crop (img : Image3) (center : P3) (r : ℤ)
    (pad : Bool) (value : ℝ) : Option (Patch3 × Pad6) :=
  let i := pyInt center.x
  let j := pyInt center.y
  let k := pyInt center.z
  let pads : Pad6 :=
    ⟨padLo i r, padHi img.n1 i r, padLo j r, padHi img.n2 j r,
      padLo k r, padHi img.n3 k r⟩
  -- the view `self.data[:, lo1:hi1, lo2:hi2, lo3:hi3]` (src/image.py:73)
  let view : Patch3 :=
    ⟨img.C, srcLen img.n1 i r, srcLen img.n2 j r, srcLen img.n3 k r,
      srcBase img.n1 i r, srcBase img.n2 j r, srcBase img.n3 k r,
      fun ch a b c =>
        img.data ch (srcBase img.n1 i r + a) (srcBase img.n2 j r + b)
          (srcBase img.n3 k r + c)⟩
  if pad then
    if axisOk img.n1 i r ∧ axisOk img.n2 j r ∧ axisOk img.n3 k r then
      -- `patch_ = torch.ones((C, ps, ps, ps)) * value` then copy the view in
      -- at offsets `zpad_top, ypad_front, xpad_left` (src/image.py:76-79);
      -- a size-1 source axis is broadcast across the target slice.
      some (⟨img.C, 2 * r + 1, 2 * r + 1, 2 * r + 1, 0, 0, 0,
        fun ch a b c =>
          if tgtBase i r ≤ a ∧ a < tgtBase i r + tgtLen img.n1 i r ∧
             tgtBase j r ≤ b ∧ b < tgtBase j r + tgtLen img.n2 j r ∧
             tgtBase k r ≤ c ∧ c < tgtBase k r + tgtLen img.n3 k r then
            view.val ch
              (if view.l1 = 1 then 0 else a - tgtBase i r)
              (if view.l2 = 1 then 0 else b - tgtBase j r)
              (if view.l3 = 1 then 0 else c - tgtBase k r)
          else value⟩, pads)
    else none
  else some (view, pads)

/-- A real-valued point, 2-D. -/
structure P2 where
  x : ℝ
  y : ℝ

/-- The padding vector returned by the 2-D branch of `Image.crop`
(`[ypad_front, ypad_back, xpad_left, xpad_right]`, src/image.py:95). -/
structure Pad4 where
  yf : ℤ
  yb : ℤ
  xl : ℤ
  xr : ℤ
deriving DecidableEq

/-- The `Image` class, 2-D flavour. -/
structure Image2 where
  C : ℕ
  n1 : ℤ
  n2 : ℤ
  data : ℤ → ℤ → ℤ → ℝ
  dx : ℝ × ℝ

/-- A cropped patch, 2-D. -/
structure Patch2 where
  C : ℕ
  l1 : ℤ
  l2 : ℤ
  b1 : ℤ
  b2 : ℤ
  val : ℤ → ℤ → ℤ → ℝ

/-- `Image.crop`, 2-D branch (src/image.py:81-104, 106). -/
noncomputable def Image2.crop (img : Image2) (center : P2) (r : ℤ)
    (pad : Bool) (value : ℝ) : Option (Patch2 × Pad4) :=
  let i := pyInt center.x
  let j := pyInt center.y
  let pads : Pad4 := ⟨padLo i r, padHi img.n1 i r, padLo j r, padHi img.n2 j r⟩
  let view : Patch2 :=
    ⟨img.C, srcLen img.n1 i r, srcLen img.n2 j r,
      srcBase img.n1 i r, srcBase img.n2 j r,
      fun ch a b => img.data ch (srcBase img.n1 i r + a) (srcBase img.n2 j r + b)⟩
  if pad then
    if axisOk img.n1 i r ∧ axisOk img.n2 j r then
      some (⟨img.C, 2 * r + 1, 2 * r + 1, 0, 0,
        fun ch a b =>
          if tgtBase i r ≤ a ∧ a < tgtBase i r + tgtLen img.n1 i r ∧
             tgtBase j r ≤ b ∧ b < tgtBase j r + tgtLen img.n2 j r then
            view.val ch
              (if view.l1 = 1 then 0 else a - tgtBase i r)
              (if view.l2 = 1 then 0 else b - tgtBase j r)
          else value⟩, pads)
    else none
  else some (view, pads)

/-- Running the `crop` method as a state transformer: the method body
(src/image.py:36-106) contains no assignment to `self.data` or `self.dx`, so
the post-state is the pre-state unchanged. -/
noncomputable def Image3.cropRun (img : Image3) (center : P3) (r : ℤ)
    (pad : Bool) (value : ℝ) : Option (Patch3 × Pad6) × Image3 :=
  (img.crop center r pad value, img)

/-- 2-D version of `Image3.cropRun`. -/
noncomputable def Image2.cropRun (img : Image2) (center : P2) (r : ℤ)
    (pad : Bool) (value : ℝ) : Option (Patch2 × Pad4) × Image2 :=
  (img.crop center r pad value, img)

/-! ### Basic evaluation lemmas -/

theorem pyInt_intCast (m : ℤ) : pyInt (m : ℝ) = m := by
  unfold pyInt
  split_ifs with h
  · exact_mod_cast Int.floor_intCast m
  · rw [show (-(m : ℝ)) = ((-m : ℤ) : ℝ) by push_cast; ring, Int.floor_intCast]
    ring

theorem pyInt_zero : pyInt (0 : ℝ) = 0 := by
  rw [show (0 : ℝ) = ((0 : ℤ) : ℝ) by norm_num, pyInt_intCast]

theorem pyInt_five : pyInt (5 : ℝ) = 5 := by
  rw [show (5 : ℝ) = ((5 : ℤ) : ℝ) by norm_num, pyInt_intCast]

theorem pyInt_neg_four : pyInt (-4 : ℝ) = -4 := by
  rw [show (-4 : ℝ) = ((-4 : ℤ) : ℝ) by norm_num, pyInt_intCast]

/-! ### Concrete volumes -/

/-- A 3-channel 30×30×30 zero volume with unit spacing. -/
noncomputable def img30 : Image3 := ⟨3, 30, 30, 30, fun _ _ _ _ => 0, (1, 1, 1)⟩

/-! ### Claims C8, C1, C4, C9 -/

/-- C8: cropping a 3×30×30×30 volume at center (0,0,0) with radius 3 and
`pad=True` returns a patch of shape (3,7,7,7), and the padding vector has the
low-side entry of each axis equal to 3 and the high-side entry equal to 0. -/
theorem C8_concrete :
    (img30.crop ⟨0, 0, 0⟩ 3 true 0).map
      (fun q => (q.1.C, q.1.l1, q.1.l2, q.1.l3, q.2)) =
      some (3, 7, 7, 7, (⟨3, 0, 3, 0, 3, 0⟩ : Pad6)) := by
  simp only [Image3.crop, img30, pyInt_zero]
  norm_num [axisOk, srcLen, tgtLen, padLo, padHi, sliceLo, sliceHi, pyLen,
    pyIdx]

/-- C1 counterexample: with the center (-4,0,0) lying outside the volume and
radius 2, `crop(..., pad=True)` on a 3×30×30×30 volume raises a torch shape
error (the valid-region slice `data[:, 0:-1, ...]` wraps around to length 29
while the target slice `patch_[:, 6:5, ...]` is empty), so the claim that
`crop` always returns a (2r+1)-sized patch for every center is false. -/
theorem C1_cex : img30.crop ⟨-4, 0, 0⟩ 2 true 0 = none := by
  simp only [Image3.crop, img30, pyInt_zero, pyInt_neg_four]
  norm_num [axisOk, srcLen, tgtLen, padLo, padHi, sliceLo, sliceHi, pyLen,
    pyIdx]

/-- C4 counterexample: for center coordinate -4 (out of volume), radius 2 and
axis size 30, the valid-region slice computed by `crop` is `0:-1`, whose
inclusive high bound -2 is not within `[0, 29]`; so the claim that for every
center the slice bounds stay within `[0, size-1]` is false. -/
theorem C4_cex :
    sliceLo (-4) 2 = 0 ∧ sliceHi 30 (-4) 2 - 1 = -2 ∧
      ¬(0 ≤ sliceHi 30 (-4) 2 - 1) := by
  refine ⟨by decide, by decide, by decide⟩

/-- Low-side pad amounts are nonnegative for any center and radius. -/
theorem padLo_nonneg (c r : ℤ) : 0 ≤ padLo c r := by
  unfold padLo; split_ifs <;> omega

/-- High-side pad amounts are nonnegative for any center and radius. -/
theorem padHi_nonneg (n c r : ℤ) : 0 ≤ padHi n c r := by
  unfold padHi; split_ifs <;> omega

/-- For a center index inside `[0, n-1]` and radius ≥ 0, both bounds of the
valid-region slice stay within `[0, n-1]`. -/
theorem slice_bounds_in_range (n c r : ℤ) (hr : 0 ≤ r) (hc0 : 0 ≤ c)
    (hc1 : c ≤ n - 1) :
    0 ≤ sliceLo c r ∧ sliceLo c r ≤ n - 1 ∧
      0 ≤ sliceHi n c r - 1 ∧ sliceHi n c r - 1 ≤ n - 1 := by
  unfold sliceLo sliceHi padLo padHi
  split_ifs <;> omega

/-- C4 amended: for every center whose truncated coordinates lie inside the
volume and every radius ≥ 0, all six padding entries are ≥ 0 (this part in
fact needs no bound on the center, see `padLo_nonneg`/`padHi_nonneg`), and
the low/high bounds of the valid-region slice lie within `[0, size-1]` on
every spatial axis. -/
theorem C4_amended (img : Image3) (center : P3) (r : ℤ) (hr : 0 ≤ r)
    (hx0 : 0 ≤ pyInt center.x) (hx1 : pyInt center.x ≤ img.n1 - 1)
    (hy0 : 0 ≤ pyInt center.y) (hy1 : pyInt center.y ≤ img.n2 - 1)
    (hz0 : 0 ≤ pyInt center.z) (hz1 : pyInt center.z ≤ img.n3 - 1) :
    (0 ≤ padLo (pyInt center.x) r ∧ 0 ≤ padHi img.n1 (pyInt center.x) r ∧
     0 ≤ padLo (pyInt center.y) r ∧ 0 ≤ padHi img.n2 (pyInt center.y) r ∧
     0 ≤ padLo (pyInt center.z) r ∧ 0 ≤ padHi img.n3 (pyInt center.z) r) ∧
    (0 ≤ sliceLo (pyInt center.x) r ∧ sliceLo (pyInt center.x) r ≤ img.n1 - 1 ∧
     0 ≤ sliceHi img.n1 (pyInt center.x) r - 1 ∧
     sliceHi img.n1 (pyInt center.x) r - 1 ≤ img.n1 - 1) ∧
    (0 ≤ sliceLo (pyInt center.y) r ∧ sliceLo (pyInt center.y) r ≤ img.n2 - 1 ∧
     0 ≤ sliceHi img.n2 (pyInt center.y) r - 1 ∧
     sliceHi img.n2 (pyInt center.y) r - 1 ≤ img.n2 - 1) ∧
    (0 ≤ sliceLo (pyInt center.z) r ∧ sliceLo (pyInt center.z) r ≤ img.n3 - 1 ∧
     0 ≤ sliceHi img.n3 (pyInt center.z) r - 1 ∧
     sliceHi img.n3 (pyInt center.z) r - 1 ≤ img.n3 - 1) :=
  ⟨⟨padLo_nonneg _ _, padHi_nonneg _ _ _, padLo_nonneg _ _,
    padHi_nonneg _ _ _, padLo_nonneg _ _, padHi_nonneg _ _ _⟩,
   slice_bounds_in_range _ _ _ hr hx0 hx1,
   slice_bounds_in_range _ _ _ hr hy0 hy1,
   slice_bounds_in_range _ _ _ hr hz0 hz1⟩

/-- Witness for `C4_amended` at the in-volume center (5,5,5), radius 2, on a
3×30×30×30 volume. -/
theorem C4_amended_wit :
    (0 ≤ padLo (pyInt (5 : ℝ)) 2 ∧ 0 ≤ padHi img30.n1 (pyInt (5 : ℝ)) 2 ∧
     0 ≤ padLo (pyInt (5 : ℝ)) 2 ∧ 0 ≤ padHi img30.n2 (pyInt (5 : ℝ)) 2 ∧
     0 ≤ padLo (pyInt (5 : ℝ)) 2 ∧ 0 ≤ padHi img30.n3 (pyInt (5 : ℝ)) 2) ∧
    (0 ≤ sliceLo (pyInt (5 : ℝ)) 2 ∧ sliceLo (pyInt (5 : ℝ)) 2 ≤ img30.n1 - 1 ∧
     0 ≤ sliceHi img30.n1 (pyInt (5 : ℝ)) 2 - 1 ∧
     sliceHi img30.n1 (pyInt (5 : ℝ)) 2 - 1 ≤ img30.n1 - 1) ∧
    (0 ≤ sliceLo (pyInt (5 : ℝ)) 2 ∧ sliceLo (pyInt (5 : ℝ)) 2 ≤ img30.n2 - 1 ∧
     0 ≤ sliceHi img30.n2 (pyInt (5 : ℝ)) 2 - 1 ∧
     sliceHi img30.n2 (pyInt (5 : ℝ)) 2 - 1 ≤ img30.n2 - 1) ∧
    (0 ≤ sliceLo (pyInt (5 : ℝ)) 2 ∧ sliceLo (pyInt (5 : ℝ)) 2 ≤ img30.n3 - 1 ∧
     0 ≤ sliceHi img30.n3 (pyInt (5 : ℝ)) 2 - 1 ∧
     sliceHi img30.n3 (pyInt (5 : ℝ)) 2 - 1 ≤ img30.n3 - 1) :=
  C4_amended img30 ⟨5, 5, 5⟩ 2 (by norm_num)
    (by rw [pyInt_five]; norm_num) (by rw [pyInt_five]; norm_num [img30])
    (by rw [pyInt_five]; norm_num) (by rw [pyInt_five]; norm_num [img30])
    (by rw [pyInt_five]; norm_num) (by rw [pyInt_five]; norm_num [img30])

/-- In the "mild" out-of-bounds range `-(r+1) ≤ c ≤ n + r` the length of the
valid-region source slice equals the length of the target slice of the padded
patch, so the torch copy succeeds on that axis. -/
theorem axis_srcLen_eq_tgtLen (n c r : ℤ) (hn : 1 ≤ n) (hr : 0 ≤ r)
    (h1 : -(r + 1) ≤ c) (h2 : c ≤ n + r) : srcLen n c r = tgtLen n c r := by
  unfold srcLen tgtLen sliceLo sliceHi padLo padHi pyLen pyIdx
  split_ifs <;> omega

/-- C1 amended: for every center whose truncated coordinates lie in
`[-(radius+1), size+radius]` on every axis — in particular every in-volume
center — and every radius ≥ 0, `crop(..., pad=True)` returns without raising
and the patch has edge length exactly `2*radius+1` on every spatial axis.
(The original claim over *all* centers fails: see the counterexample at
center (-4,0,0) above.) -/
theorem C1_amended (img : Image3) (center : P3) (r : ℤ) (value : ℝ)
    (hn1 : 1 ≤ img.n1) (hn2 : 1 ≤ img.n2) (hn3 : 1 ≤ img.n3) (hr : 0 ≤ r)
    (hx0 : -(r + 1) ≤ pyInt center.x) (hx1 : pyInt center.x ≤ img.n1 + r)
    (hy0 : -(r + 1) ≤ pyInt center.y) (hy1 : pyInt center.y ≤ img.n2 + r)
    (hz0 : -(r + 1) ≤ pyInt center.z) (hz1 : pyInt center.z ≤ img.n3 + r) :
    (img.crop center r true value).map (fun q => (q.1.l1, q.1.l2, q.1.l3)) =
      some (2 * r + 1, 2 * r + 1, 2 * r + 1) := by
  have o1 : axisOk img.n1 (pyInt center.x) r :=
    Or.inl (axis_srcLen_eq_tgtLen _ _ _ hn1 hr hx0 hx1)
  have o2 : axisOk img.n2 (pyInt center.y) r :=
    Or.inl (axis_srcLen_eq_tgtLen _ _ _ hn2 hr hy0 hy1)
  have o3 : axisOk img.n3 (pyInt center.z) r :=
    Or.inl (axis_srcLen_eq_tgtLen _ _ _ hn3 hr hz0 hz1)
  have hand : axisOk img.n1 (pyInt center.x) r ∧
      axisOk img.n2 (pyInt center.y) r ∧ axisOk img.n3 (pyInt center.z) r :=
    ⟨o1, o2, o3⟩
  simp only [Image3.crop]
  rw [if_pos hand]
  rfl

/-- Witness for `C1_amended`: cropping `img30` at the in-volume center
(5,5,5) with radius 2 yields a 5×5×5 patch. -/
theorem C1_amended_wit :
    (img30.crop ⟨5, 5, 5⟩ 2 true 0).map (fun q => (q.1.l1, q.1.l2, q.1.l3)) =
      some (2 * 2 + 1, 2 * 2 + 1, 2 * 2 + 1) :=
  C1_amended img30 ⟨5, 5, 5⟩ 2 0 (by norm_num [img30]) (by norm_num [img30])
    (by norm_num [img30]) (by norm_num)
    (by rw [pyInt_five]; norm_num) (by rw [pyInt_five]; norm_num [img30])
    (by rw [pyInt_five]; norm_num) (by rw [pyInt_five]; norm_num [img30])
    (by rw [pyInt_five]; norm_num) (by rw [pyInt_five]; norm_num [img30])

/-- C9: `crop` is a read-only operation — for every center, radius, pad flag,
fill value and dimensionality (3-D and 2-D branches), running the method
leaves `self.data` (indeed the whole image state) unchanged.  The method body
(src/image.py:36-106) only reads `self.data`; in `pad=False` mode the
returned patch is a view aliasing the buffer, but `crop` itself writes
nothing through it. -/
theorem C9_crop_pure :
    (∀ (img : Image3) (center : P3) (r : ℤ) (pad : Bool) (value : ℝ),
      (img.cropRun center r pad value).2 = img) ∧
    (∀ (img : Image2) (center : P2) (r : ℤ) (pad : Bool) (value : ℝ),
      (img.cropRun center r pad value).2 = img) :=
  ⟨fun _ _ _ _ _ => rfl, fun _ _ _ _ _ => rfl⟩

/-! ### `draw_line_segment` geometry (src/image.py:109-158) -/

/-- Midpoint of the segment: `center = segment.sum(axis=0) / 2`
(src/image.py:121). -/
noncomputable def segMid (p0 p1 : P3) : P3 :=
  ⟨(p0.x + p1.x) / 2, (p0.y + p1.y) / 2, (p0.z + p1.z) / 2⟩

/-- Segment length: `torch.sqrt(torch.sum(direction**2))` with
`direction = segment[0] - segment[1]` (src/image.py:122-123). -/
noncomputable def segLen (p0 p1 : P3) : ℝ :=
  Real.sqrt ((p0.x - p1.x) ^ 2 + (p0.y - p1.y) ^ 2 + (p0.z - p1.z) ^ 2)

/-- Unit direction: `direction / segment_length` (src/image.py:126).  For a
zero-length segment the float code divides 0 by 0 producing NaN; here the
real-valued model gives 0, and `Image3.draw` guards that case separately. -/
noncomputable def unitDir (p0 p1 : P3) : P3 :=
  ⟨(p0.x - p1.x) / segLen p0 p1, (p0.y - p1.y) / segLen p0 p1,
    (p0.z - p1.z) / segLen p0 p1⟩

/-- `L = int(torch.ceil(segment_length/2))` (src/image.py:129); the `int`
cast is the identity on the nonnegative integral value `ceil` returns. -/
noncomputable def halfL (p0 p1 : P3) : ℤ := ⌈segLen p0 p1 / 2⌉

/-- `overhang = int(2*width)` (src/image.py:130). -/
noncomputable def overhang (w : ℝ) : ℤ := pyInt (2 * w)

/-- `patch_radius = L + overhang` (src/image.py:131). -/
noncomputable def patchRadius (p0 p1 : P3) (w : ℝ) : ℤ :=
  halfL p0 p1 + overhang w

/-- `patch_size = 2*patch_radius + 1` (src/image.py:133). -/
noncomputable def patchSize (p0 p1 : P3) (w : ℝ) : ℤ :=
  2 * patchRadius p0 p1 w + 1

/-- `torch.round` / `np.round`: round half to even. -/
noncomputable def rhe (x : ℝ) : ℤ :=
  if Int.fract x = 1 / 2 then (if Even ⌊x⌋ then ⌊x⌋ else ⌊x⌋ + 1) else round x

/-- Rational version of round-half-to-even (`np.round` on exact values). -/
def rheQ (q : ℚ) : ℤ :=
  if Int.fract q = 1 / 2 then (if Even ⌊q⌋ then ⌊q⌋ else ⌊q⌋ + 1) else round q

/-- `start = torch.round(segment_length*direction + c).to(int)` with
`c = [patch_radius]*3` (src/image.py:136-137).  Note: the code scales the
unit direction by the FULL segment length, not half of it. -/
noncomputable def lineStart (p0 p1 : P3) (w : ℝ) : I3 :=
  ⟨rhe (segLen p0 p1 * (unitDir p0 p1).x + (patchRadius p0 p1 w : ℝ)),
    rhe (segLen p0 p1 * (unitDir p0 p1).y + (patchRadius p0 p1 w : ℝ)),
    rhe (segLen p0 p1 * (unitDir p0 p1).z + (patchRadius p0 p1 w : ℝ))⟩

/-- `end = torch.round(-segment_length*direction + c).to(int)`
(src/image.py:138). -/
noncomputable def lineEnd (p0 p1 : P3) (w : ℝ) : I3 :=
  ⟨rhe (-(segLen p0 p1) * (unitDir p0 p1).x + (patchRadius p0 p1 w : ℝ)),
    rhe (-(segLen p0 p1) * (unitDir p0 p1).y + (patchRadius p0 p1 w : ℝ)),
    rhe (-(segLen p0 p1) * (unitDir p0 p1).z + (patchRadius p0 p1 w : ℝ))⟩

/-- `np.linspace(a, b, n, endpoint=True)` on integer endpoints, exact. -/
def linspace (a b : ℤ) (n : ℕ) : List ℚ :=
  if n = 0 then []
  else if n = 1 then [(a : ℚ)]
  else (List.range n).map
    (fun t : ℕ => (a : ℚ) + ((b : ℚ) - a) * (t : ℚ) / ((n : ℚ) - 1))

/-- `npoints = int(np.ceil(np.max(np.abs(stop - start)))) + 1` of
`skimage.draw.line_nd` with `endpoint=True`, on integer endpoints. -/
def lineNp (s e : I3) : ℕ :=
  max (max (s.x - e.x).natAbs ((s.y - e.y).natAbs)) ((s.z - e.z).natAbs) + 1

/-- `skimage.draw.line_nd(start, stop, endpoint=True)` on integer points:
`npoints` samples per axis via `linspace`, rounded to integers (on the
integer-step coordinates produced here rounding is exact, so the
`_round_safe` half-integer special case never differs). -/
def lineNd (s e : I3) : List I3 :=
  let xs := (linspace s.x e.x (lineNp s e)).map rheQ
  let ys := (linspace s.y e.y (lineNp s e)).map rheQ
  let zs := (linspace s.z e.z (lineNp s e)).map rheQ
  (xs.zip (ys.zip zs)).map (fun p => ⟨p.1, p.2.1, p.2.2⟩)

/-- The voxel indices traversed by the rasterized line (src/image.py:139). -/
noncomputable def lineCells (p0 p1 : P3) (w : ℝ) : List I3 :=
  lineNd (lineStart p0 p1 w) (lineEnd p0 p1 w)

/-- `X[line] = 1.0` raises `IndexError` iff some index is ≥ the axis size or
< -size (src/image.py:140). -/
def oobB (ps : ℤ) (cells : List I3) : Bool :=
  cells.any (fun c =>
    ps ≤ c.x || c.x < -ps || ps ≤ c.y || c.y < -ps || ps ≤ c.z || c.z < -ps)

/-- Torch index semantics: a negative in-range index counts from the end. -/
def wrapIdx (ps i : ℤ) : ℤ := if i < 0 then i + ps else i

/-- `wrapIdx` applied to all three coordinates. -/
def wrap3 (ps : ℤ) (c : I3) : I3 :=
  ⟨wrapIdx ps c.x, wrapIdx ps c.y, wrapIdx ps c.z⟩

/-- The working buffer after `X = torch.zeros([patch_size]*3)` and
`X[line] = 1.0` (src/image.py:134, 140). -/
noncomputable def rasterX (p0 p1 : P3) (w : ℝ) : I3 → ℝ := fun p =>
  if p ∈ (lineCells p0 p1 w).map (wrap3 (patchSize p0 p1 w)) then 1 else 0

/-- scipy `gaussian_filter1d` kernel half-width:
`lw = int(truncate*sigma + 0.5)` with `truncate = 4.0`. -/
noncomputable def gRad (σ : ℝ) : ℤ := pyInt (4 * σ + 1 / 2)

/-- Unnormalised Gaussian weight `exp(-d²/(2σ²))` (scipy
`_gaussian_kernel1d`). -/
noncomputable def gw (σ : ℝ) (d : ℤ) : ℝ :=
  Real.exp (-((d : ℝ) ^ 2) / (2 * σ ^ 2))

/-- Kernel normaliser: the sum of the weights over `[-lw, lw]`. -/
noncomputable def gW (σ : ℝ) : ℝ :=
  ∑ t ∈ Finset.Icc (-(gRad σ)) (gRad σ), gw σ t

/-- Normalised Gaussian kernel weight. -/
noncomputable def gK (σ : ℝ) (d : ℤ) : ℝ := gw σ d / gW σ

/-- Index clamping for the `mode='nearest'` boundary handling of
`skimage.filters.gaussian`. -/
def clampIdx (n i : ℤ) : ℤ := min (max i 0) (n - 1)

/-- 1-D Gaussian correlation along axis 0 of the working buffer. -/
noncomputable def blur1 (n : ℤ) (σ : ℝ) (f : I3 → ℝ) : I3 → ℝ := fun p =>
  ∑ d ∈ Finset.Icc (-(gRad σ)) (gRad σ),
    gK σ d * f ⟨clampIdx n (p.x + d), p.y, p.z⟩

/-- 1-D Gaussian correlation along axis 1. -/
noncomputable def blur2 (n : ℤ) (σ : ℝ) (f : I3 → ℝ) : I3 → ℝ := fun p =>
  ∑ d ∈ Finset.Icc (-(gRad σ)) (gRad σ),
    gK σ d * f ⟨p.x, clampIdx n (p.y + d), p.z⟩

/-- 1-D Gaussian correlation along axis 2. -/
noncomputable def blur3 (n : ℤ) (σ : ℝ) (f : I3 → ℝ) : I3 → ℝ := fun p =>
  ∑ d ∈ Finset.Icc (-(gRad σ)) (gRad σ),
    gK σ d * f ⟨p.x, p.y, clampIdx n (p.z + d)⟩

/-- `X = torch.Tensor(gaussian(X, sigma=sigma))` with
`sigma = [d*width/2 for d in self.dx]` (src/image.py:141-142): separable
Gaussian blur, axes applied in ascending order, `mode='nearest'`. -/
noncomputable def blurred (dx : ℝ × ℝ × ℝ) (w : ℝ) (p0 p1 : P3) : I3 → ℝ :=
  blur3 (patchSize p0 p1 w) (dx.2.2 * w / 2)
    (blur2 (patchSize p0 p1 w) (dx.2.1 * w / 2)
      (blur1 (patchSize p0 p1 w) (dx.1 * w / 2) (rasterX p0 p1 w)))

/-- The composite written into the target channel: per-voxel maximum
(src/image.py:153), then optional binary thresholding at 0.68
(src/image.py:155-156). -/
noncomputable def compost (binary : Bool) (n o : ℝ) : ℝ :=
  if binary then (if max n o > 0.68 then 1 else 0) else max n o

/-- The view patch returned by `Image.crop(..., pad=False)` (src/image.py:73):
lengths, offsets into `self.data`, and values. -/
noncomputable def viewOf (img : Image3) (center : P3) (R : ℤ) : Patch3 :=
  ⟨img.C, srcLen img.n1 (pyInt center.x) R, srcLen img.n2 (pyInt center.y) R,
    srcLen img.n3 (pyInt center.z) R,
    srcBase img.n1 (pyInt center.x) R, srcBase img.n2 (pyInt center.y) R,
    srcBase img.n3 (pyInt center.z) R,
    fun ch a b c =>
      img.data ch (srcBase img.n1 (pyInt center.x) R + a)
        (srcBase img.n2 (pyInt center.y) R + b)
        (srcBase img.n3 (pyInt center.z) R + c)⟩

/-- The padding vector returned by `Image.crop` (src/image.py:70). -/
noncomputable def padsOf (img : Image3) (center : P3) (R : ℤ) : Pad6 :=
  ⟨padLo (pyInt center.x) R, padHi img.n1 (pyInt center.x) R,
    padLo (pyInt center.y) R, padHi img.n2 (pyInt center.y) R,
    padLo (pyInt center.z) R, padHi img.n3 (pyInt center.z) R⟩

/-- `crop` with `pad=False` never raises and returns the view plus padding. -/
theorem crop_noPad (img : Image3) (center : P3) (R : ℤ) (v : ℝ) :
    img.crop center R false v = some (viewOf img center R, padsOf img center R) :=
  rfl

/-- Length of axis `i` of the working buffer after trimming by the crop
padding: `X[padding[0] : X.shape[0]-padding[1], ...]` (src/image.py:149). -/
noncomputable def dTrim1 (img : Image3) (p0 p1 : P3) (w : ℝ) : ℤ :=
  pyLen (patchSize p0 p1 w)
    (padsOf img (segMid p0 p1) (patchRadius p0 p1 w)).zt
    (patchSize p0 p1 w - (padsOf img (segMid p0 p1) (patchRadius p0 p1 w)).zb)

/-- Trimmed length on axis 1 (src/image.py:149). -/
noncomputable def dTrim2 (img : Image3) (p0 p1 : P3) (w : ℝ) : ℤ :=
  pyLen (patchSize p0 p1 w)
    (padsOf img (segMid p0 p1) (patchRadius p0 p1 w)).yf
    (patchSize p0 p1 w - (padsOf img (segMid p0 p1) (patchRadius p0 p1 w)).yb)

/-- Trimmed length on axis 2 (src/image.py:149). -/
noncomputable def dTrim3 (img : Image3) (p0 p1 : P3) (w : ℝ) : ℤ :=
  pyLen (patchSize p0 p1 w)
    (padsOf img (segMid p0 p1) (patchRadius p0 p1 w)).xl
    (patchSize p0 p1 w - (padsOf img (segMid p0 p1) (patchRadius p0 p1 w)).xr)

/-- The trimmed working buffer `new_patch` (src/image.py:149), as a function
of the trimmed index. -/
noncomputable def dNewPatch (img : Image3) (p0 p1 : P3) (w : ℝ) : I3 → ℝ :=
  fun m =>
    blurred img.dx w p0 p1
      ⟨pyIdx (patchSize p0 p1 w)
          (padsOf img (segMid p0 p1) (patchRadius p0 p1 w)).zt + m.x,
        pyIdx (patchSize p0 p1 w)
          (padsOf img (segMid p0 p1) (patchRadius p0 p1 w)).yf + m.y,
        pyIdx (patchSize p0 p1 w)
          (padsOf img (segMid p0 p1) (patchRadius p0 p1 w)).xl + m.z⟩

/-- Index set of the trimmed working buffer. -/
noncomputable def dSet (img : Image3) (p0 p1 : P3) (w : ℝ) :
    Finset (ℤ × ℤ × ℤ) :=
  Finset.Icc 0 (dTrim1 img p0 p1 w - 1) ×ˢ
    (Finset.Icc 0 (dTrim2 img p0 p1 w - 1) ×ˢ
      Finset.Icc 0 (dTrim3 img p0 p1 w - 1))

/-- `torch.amax(new_patch, dim=(0,1,2))` (src/image.py:150); 0 if the buffer
is empty (in which case `draw` fails before using it).  When the trimmed
buffer is nonempty but identically zero this maximum is 0.0 and the float
division `new_patch /= amax` is 0.0/0.0 = NaN; `Image3.draw` guards that
run separately (the real-valued model cannot represent the NaN values the
torch call then writes). -/
noncomputable def dAmax (img : Image3) (p0 p1 : P3) (w : ℝ) : ℝ :=
  if h : (dSet img p0 p1 w).Nonempty then
    (dSet img p0 p1 w).sup' h
      (fun m => dNewPatch img p0 p1 w ⟨m.1, m.2.1, m.2.2⟩)
  else 0

/-- `patch[channel]`: Python negative indexing resolves a negative channel
index from the end (src/image.py:153). -/
def dRCh (C : ℕ) (channel : ℤ) : ℤ :=
  if channel < 0 then (C : ℤ) + channel else channel

/-- The image produced by a successful `draw_line_segment` call: on the
target channel, inside the cropped view region, the normalized blurred line
is max-composited with the existing data and optionally thresholded
(src/image.py:153-156); everything else is untouched.  Only meaningful when
`dAmax ≠ 0`: `Image3.draw` never returns this value on the 0.0/0.0 NaN run,
which it models as a failure instead. -/
noncomputable def dResult (img : Image3) (p0 p1 : P3) (w : ℝ)
    (binary : Bool) (channel : ℤ) : Image3 :=
  { img with data := (fun ch a b c =>
      if ch = dRCh img.C channel ∧
          (viewOf img (segMid p0 p1) (patchRadius p0 p1 w)).b1 ≤ a ∧
          a < (viewOf img (segMid p0 p1) (patchRadius p0 p1 w)).b1 +
            (viewOf img (segMid p0 p1) (patchRadius p0 p1 w)).l1 ∧
          (viewOf img (segMid p0 p1) (patchRadius p0 p1 w)).b2 ≤ b ∧
          b < (viewOf img (segMid p0 p1) (patchRadius p0 p1 w)).b2 +
            (viewOf img (segMid p0 p1) (patchRadius p0 p1 w)).l2 ∧
          (viewOf img (segMid p0 p1) (patchRadius p0 p1 w)).b3 ≤ c ∧
          c < (viewOf img (segMid p0 p1) (patchRadius p0 p1 w)).b3 +
            (viewOf img (segMid p0 p1) (patchRadius p0 p1 w)).l3 then
        compost binary
          (dNewPatch img p0 p1 w
              ⟨a - (viewOf img (segMid p0 p1) (patchRadius p0 p1 w)).b1,
                b - (viewOf img (segMid p0 p1) (patchRadius p0 p1 w)).b2,
                c - (viewOf img (segMid p0 p1) (patchRadius p0 p1 w)).b3⟩ /
            dAmax img p0 p1 w)
          (img.data ch a b c)
      else img.data ch a b c) }

open Classical in
/-- `Image.draw_line_segment`, 3-D (src/image.py:109-158).  Returns the
updated image, or `none` where the torch code raises or NaN-poisons the
buffer:
* a zero-length segment makes `direction / segment_length` a float NaN whose
  int cast yields an invalid rasterization index (modelled as failure);
* `X[line] = 1.0` with an out-of-range index raises `IndexError`;
* `torch.amax` of an empty trimmed patch raises;
* a trimmed working buffer that is nonempty but identically zero makes
  `new_patch /= torch.amax(new_patch, ...)` evaluate 0.0/0.0 = NaN, and
  `torch.maximum` then writes NaN over the whole target region: the call
  returns, but the composited region is poisoned.  The real-valued model
  cannot represent NaN, so such poisoned runs are flagged as failures (the
  same convention as the zero-length-segment NaN path);
* an out-of-range channel raises `IndexError`;
* a trimmed-patch/view shape mismatch makes the composite assignment raise
  (the corner where torch would instead broadcast a size-1 axis is also
  modelled as failure). -/
noncomputable def Image3.draw (img : Image3) (p0 p1 : P3) (w : ℝ)
    (binary : Bool) (channel : ℤ) : Option Image3 :=
  if segLen p0 p1 = 0 then none
  else
    if oobB (patchSize p0 p1 w) (lineCells p0 p1 w) then none
    else
      match img.crop (segMid p0 p1) (patchRadius p0 p1 w) false 0 with
      | none => none
      | some (view, _pads) =>
        if (dSet img p0 p1 w).Nonempty then
          if dAmax img p0 p1 w = 0 then none
          else
            if 0 ≤ dRCh img.C channel ∧ dRCh img.C channel < (img.C : ℤ) then
              if dTrim1 img p0 p1 w = view.l1 ∧
                  dTrim2 img p0 p1 w = view.l2 ∧
                  dTrim3 img p0 p1 w = view.l3 then
                some (dResult img p0 p1 w binary channel)
              else none
            else none
        else none

/-! ### Evaluation lemmas for the draw geometry -/

theorem rhe_intCast (m : ℤ) : rhe (m : ℝ) = m := by
  unfold rhe
  rw [Int.fract_intCast]
  rw [if_neg (show ¬((0 : ℝ) = 1 / 2) by norm_num)]
  exact round_intCast m

theorem rhe_eval {x : ℝ} {m : ℤ} (h : x = (m : ℝ)) : rhe x = m := by
  rw [h]; exact rhe_intCast m

theorem pyInt_eval {x : ℝ} {m : ℤ} (h : x = (m : ℝ)) : pyInt x = m := by
  rw [h]; exact pyInt_intCast m

theorem ceil_eval {x : ℝ} {m : ℤ} (h : x = (m : ℝ)) : ⌈x⌉ = m := by
  rw [h]; exact Int.ceil_intCast m

theorem rheQ_intCast (m : ℤ) : rheQ (m : ℚ) = m := by
  unfold rheQ
  rw [Int.fract_intCast]
  rw [if_neg (show ¬((0 : ℚ) = 1 / 2) by norm_num)]
  exact round_intCast m

theorem rheQ_eval {q : ℚ} {m : ℤ} (h : q = (m : ℚ)) : rheQ q = m := by
  rw [h]; exact rheQ_intCast m

theorem linspace_length (a b : ℤ) (n : ℕ) : (linspace a b n).length = n := by
  unfold linspace
  split_ifs with h1 h2
  · simp [h1]
  · simp [h2]
  · simp

theorem linspace_of_two_le (a b : ℤ) (n : ℕ) (h2 : 2 ≤ n) :
    linspace a b n =
      (List.range n).map
        (fun t : ℕ => (a : ℚ) + ((b : ℚ) - a) * (t : ℚ) / ((n : ℚ) - 1)) := by
  unfold linspace
  rw [if_neg (by omega), if_neg (by omega)]

/-- With `endpoint=True`, the rasterized line contains the `stop` cell: the
last `linspace` sample on each axis is exactly the endpoint coordinate. -/
theorem lineNd_mem_end (s e : I3) (h : ¬s = e) : e ∈ lineNd s e := by
  obtain ⟨sx, sy, sz⟩ := s
  obtain ⟨ex, ey, ez⟩ := e
  have hnp : 2 ≤ lineNp ⟨sx, sy, sz⟩ ⟨ex, ey, ez⟩ := by
    unfold lineNp
    simp only
    by_contra hc
    push_neg at hc
    apply h
    simp only [I3.mk.injEq]
    refine ⟨?_, ?_, ?_⟩ <;> omega
  set n := lineNp ⟨sx, sy, sz⟩ ⟨ex, ey, ez⟩ with hn
  have hne : ((n : ℚ) - 1) ≠ 0 := by
    have hq : (2 : ℚ) ≤ (n : ℚ) := by exact_mod_cast hnp
    linarith
  have hcast : (((n - 1 : ℕ)) : ℚ) = (n : ℚ) - 1 := by
    rw [Nat.cast_sub (by omega)]
    norm_num
  have hval : ∀ a b : ℤ,
      (a : ℚ) + ((b : ℚ) - a) * ((n - 1 : ℕ) : ℚ) / ((n : ℚ) - 1) = (b : ℚ) := by
    intro a b
    rw [hcast, mul_div_assoc, div_self hne, mul_one]
    ring
  have hlx : n - 1 < ((linspace sx ex n).map rheQ).length := by
    simp only [List.length_map, linspace_length]; omega
  have hly : n - 1 < ((linspace sy ey n).map rheQ).length := by
    simp only [List.length_map, linspace_length]; omega
  have hlz : n - 1 < ((linspace sz ez n).map rheQ).length := by
    simp only [List.length_map, linspace_length]; omega
  have hx : ((linspace sx ex n).map rheQ)[n - 1] = ex := by
    simp only [linspace_of_two_le _ _ _ hnp, List.getElem_map,
      List.getElem_range]
    exact rheQ_eval (hval sx ex)
  have hy : ((linspace sy ey n).map rheQ)[n - 1] = ey := by
    simp only [linspace_of_two_le _ _ _ hnp, List.getElem_map,
      List.getElem_range]
    exact rheQ_eval (hval sy ey)
  have hz : ((linspace sz ez n).map rheQ)[n - 1] = ez := by
    simp only [linspace_of_two_le _ _ _ hnp, List.getElem_map,
      List.getElem_range]
    exact rheQ_eval (hval sz ez)
  have hlzip : n - 1 < (((linspace sx ex n).map rheQ).zip
      (((linspace sy ey n).map rheQ).zip
        ((linspace sz ez n).map rheQ))).length := by
    simp only [List.length_zip, List.length_map, linspace_length]
    omega
  unfold lineNd
  rw [List.mem_map]
  refine ⟨(ex, (ey, ez)), ?_, rfl⟩
  rw [List.mem_iff_getElem]
  refine ⟨n - 1, hlzip, ?_⟩
  simp only [List.getElem_zip]
  simp [hx, hy, hz]

/-- A written cell with an out-of-range coordinate makes `X[line] = 1.0`
raise. -/
theorem oobB_of_mem {ps : ℤ} {cells : List I3} {c : I3} (hm : c ∈ cells)
    (hc : ps ≤ c.z) : oobB ps cells = true := by
  unfold oobB
  rw [List.any_eq_true]
  refine ⟨c, hm, ?_⟩
  simp [hc]

/-! ### Claim C2: the working buffer does not contain the endpoints -/

theorem segLen_c2 : segLen ⟨0, 0, 0⟩ ⟨0, 0, 10⟩ = 10 := by
  have h : ((0 : ℝ) - 0) ^ 2 + ((0 : ℝ) - 0) ^ 2 + ((0 : ℝ) - 10) ^ 2 =
      10 ^ 2 := by norm_num
  simp only [segLen]
  rw [h, Real.sqrt_sq (by norm_num : (0 : ℝ) ≤ 10)]

theorem unitDir_c2 : unitDir ⟨0, 0, 0⟩ ⟨0, 0, 10⟩ = ⟨0, 0, -1⟩ := by
  simp only [unitDir, segLen_c2]
  norm_num

theorem patchRadius_c2 : patchRadius ⟨0, 0, 0⟩ ⟨0, 0, 10⟩ 1 = 7 := by
  simp only [patchRadius, halfL, overhang, segLen_c2]
  rw [ceil_eval (show (10 : ℝ) / 2 = ((5 : ℤ) : ℝ) by norm_num),
    pyInt_eval (show (2 * 1 : ℝ) = ((2 : ℤ) : ℝ) by norm_num)]
  norm_num

theorem patchSize_c2 : patchSize ⟨0, 0, 0⟩ ⟨0, 0, 10⟩ 1 = 15 := by
  simp only [patchSize, patchRadius_c2]
  norm_num

theorem lineStart_c2 : lineStart ⟨0, 0, 0⟩ ⟨0, 0, 10⟩ 1 = ⟨7, 7, -3⟩ := by
  simp only [lineStart, segLen_c2, unitDir_c2, patchRadius_c2, I3.mk.injEq]
  refine ⟨rhe_eval ?_, rhe_eval ?_, rhe_eval ?_⟩ <;> push_cast <;> norm_num

theorem lineEnd_c2 : lineEnd ⟨0, 0, 0⟩ ⟨0, 0, 10⟩ 1 = ⟨7, 7, 17⟩ := by
  simp only [lineEnd, segLen_c2, unitDir_c2, patchRadius_c2, I3.mk.injEq]
  refine ⟨rhe_eval ?_, rhe_eval ?_, rhe_eval ?_⟩ <;> push_cast <;> norm_num

theorem lineCells_c2 :
    lineCells ⟨0, 0, 0⟩ ⟨0, 0, 10⟩ 1 = lineNd ⟨7, 7, -3⟩ ⟨7, 7, 17⟩ := by
  unfold lineCells
  rw [lineStart_c2, lineEnd_c2]

/-- C2: refuted on the code — `draw_line_segment` scales the unit direction
by the FULL segment length (src/image.py:137-138), not half of it, so for
the segment (0,0,0)-(0,0,10) with width 1 the rasterized endpoint cell
(7,7,17) is a written cell lying outside the working buffer of edge length
15, and `X[line] = 1.0` raises `IndexError` (`oobB ... = true`).  The claim
(and the code's own comment "the patch should contain both line end points")
would require endpoint offsets of ±segment_length/2. -/
theorem C2_eval :
    lineStart ⟨0, 0, 0⟩ ⟨0, 0, 10⟩ 1 = ⟨7, 7, -3⟩ ∧
    lineEnd ⟨0, 0, 0⟩ ⟨0, 0, 10⟩ 1 = ⟨7, 7, 17⟩ ∧
    patchSize ⟨0, 0, 0⟩ ⟨0, 0, 10⟩ 1 = 15 ∧
    (⟨7, 7, 17⟩ : I3) ∈ lineCells ⟨0, 0, 0⟩ ⟨0, 0, 10⟩ 1 ∧
    oobB (patchSize ⟨0, 0, 0⟩ ⟨0, 0, 10⟩ 1)
      (lineCells ⟨0, 0, 0⟩ ⟨0, 0, 10⟩ 1) = true := by
  have hmem : (⟨7, 7, 17⟩ : I3) ∈ lineCells ⟨0, 0, 0⟩ ⟨0, 0, 10⟩ 1 := by
    rw [lineCells_c2]
    exact lineNd_mem_end _ _ (by decide)
  refine ⟨lineStart_c2, lineEnd_c2, patchSize_c2, hmem, ?_⟩
  rw [patchSize_c2]
  exact oobB_of_mem hmem (by norm_num)

/-! ### Claim C6: zero-length segment -/

/-- C6: for a segment with identical endpoints the code computes
`segment_length = 0` and then evaluates `direction / segment_length`
(src/image.py:126), a float division by zero producing NaN; the NaN
propagates into `torch.round(...).to(int)` whose result is an invalid
rasterization index, so the call neither raises an `InvalidSegmentError`
(no such class exists in the source) nor performs a single-voxel draw.  In
the model this is the guarded failing path of `Image3.draw`. -/
theorem C6_eval :
    segLen ⟨5, 5, 5⟩ ⟨5, 5, 5⟩ = 0 ∧
    img30.draw ⟨5, 5, 5⟩ ⟨5, 5, 5⟩ 1 false 0 = none := by
  have h : segLen ⟨5, 5, 5⟩ ⟨5, 5, 5⟩ = 0 := by
    simp only [segLen]
    norm_num
  refine ⟨h, ?_⟩
  unfold Image3.draw
  rw [if_pos h]

/-! ### Claim C3: the concrete 21×21×21 scenario raises -/

/-- A 3-channel 21×21×21 zero volume with unit spacing. -/
noncomputable def img21x3 : Image3 := ⟨3, 21, 21, 21, fun _ _ _ _ => 0, (1, 1, 1)⟩

theorem segLen_c3 : segLen ⟨10, 10, 5⟩ ⟨10, 10, 15⟩ = 10 := by
  have h : ((10 : ℝ) - 10) ^ 2 + ((10 : ℝ) - 10) ^ 2 + ((5 : ℝ) - 15) ^ 2 =
      10 ^ 2 := by norm_num
  simp only [segLen]
  rw [h, Real.sqrt_sq (by norm_num : (0 : ℝ) ≤ 10)]

theorem unitDir_c3 : unitDir ⟨10, 10, 5⟩ ⟨10, 10, 15⟩ = ⟨0, 0, -1⟩ := by
  simp only [unitDir, segLen_c3]
  norm_num

theorem patchRadius_c3 : patchRadius ⟨10, 10, 5⟩ ⟨10, 10, 15⟩ 1 = 7 := by
  simp only [patchRadius, halfL, overhang, segLen_c3]
  rw [ceil_eval (show (10 : ℝ) / 2 = ((5 : ℤ) : ℝ) by norm_num),
    pyInt_eval (show (2 * 1 : ℝ) = ((2 : ℤ) : ℝ) by norm_num)]
  norm_num

theorem patchSize_c3 : patchSize ⟨10, 10, 5⟩ ⟨10, 10, 15⟩ 1 = 15 := by
  simp only [patchSize, patchRadius_c3]
  norm_num

theorem lineStart_c3 : lineStart ⟨10, 10, 5⟩ ⟨10, 10, 15⟩ 1 = ⟨7, 7, -3⟩ := by
  simp only [lineStart, segLen_c3, unitDir_c3, patchRadius_c3, I3.mk.injEq]
  refine ⟨rhe_eval ?_, rhe_eval ?_, rhe_eval ?_⟩ <;> push_cast <;> norm_num

theorem lineEnd_c3 : lineEnd ⟨10, 10, 5⟩ ⟨10, 10, 15⟩ 1 = ⟨7, 7, 17⟩ := by
  simp only [lineEnd, segLen_c3, unitDir_c3, patchRadius_c3, I3.mk.injEq]
  refine ⟨rhe_eval ?_, rhe_eval ?_, rhe_eval ?_⟩ <;> push_cast <;> norm_num

theorem lineCells_c3 :
    lineCells ⟨10, 10, 5⟩ ⟨10, 10, 15⟩ 1 = lineNd ⟨7, 7, -3⟩ ⟨7, 7, 17⟩ := by
  unfold lineCells
  rw [lineStart_c3, lineEnd_c3]

/-- C3: refuted on the code — on a 3-channel 21×21×21 zero volume with unit
spacing, `draw_line_segment((10,10,5)-(10,10,15), width=1, channel=0)` does
not complete: because the endpoints are placed at ±segment_length from the
working-buffer center (src/image.py:137-138), the rasterization indices run
from -3 to 17 on a buffer of edge 15 and `X[line] = 1.0` raises
`IndexError`.  The claimed final intensities are never produced. -/
theorem C3_eval : img21x3.draw ⟨10, 10, 5⟩ ⟨10, 10, 15⟩ 1 false 0 = none := by
  have hne0 : ¬(segLen ⟨10, 10, 5⟩ ⟨10, 10, 15⟩ = 0) := by
    rw [segLen_c3]; norm_num
  have hoob : oobB (patchSize ⟨10, 10, 5⟩ ⟨10, 10, 15⟩ 1)
      (lineCells ⟨10, 10, 5⟩ ⟨10, 10, 15⟩ 1) = true := by
    rw [lineCells_c3, patchSize_c3]
    exact oobB_of_mem (lineNd_mem_end _ _ (by decide)) (by norm_num)
  unfold Image3.draw
  rw [if_neg hne0]
  simp only [hoob, if_true]

/-! ### Bounds on the blurred, normalized working patch -/

theorem gw_pos (σ : ℝ) (d : ℤ) : 0 < gw σ d := Real.exp_pos _

theorem gW_nonneg (σ : ℝ) : 0 ≤ gW σ :=
  Finset.sum_nonneg fun t _ => (gw_pos σ t).le

theorem gK_nonneg (σ : ℝ) (d : ℤ) : 0 ≤ gK σ d :=
  div_nonneg (gw_pos σ d).le (gW_nonneg σ)

theorem blur1_nonneg (n : ℤ) (σ : ℝ) (f : I3 → ℝ) (hf : ∀ p, 0 ≤ f p) :
    ∀ p, 0 ≤ blur1 n σ f p := fun _p =>
  Finset.sum_nonneg fun d _ => mul_nonneg (gK_nonneg σ d) (hf _)

theorem blur2_nonneg (n : ℤ) (σ : ℝ) (f : I3 → ℝ) (hf : ∀ p, 0 ≤ f p) :
    ∀ p, 0 ≤ blur2 n σ f p := fun _p =>
  Finset.sum_nonneg fun d _ => mul_nonneg (gK_nonneg σ d) (hf _)

theorem blur3_nonneg (n : ℤ) (σ : ℝ) (f : I3 → ℝ) (hf : ∀ p, 0 ≤ f p) :
    ∀ p, 0 ≤ blur3 n σ f p := fun _p =>
  Finset.sum_nonneg fun d _ => mul_nonneg (gK_nonneg σ d) (hf _)

theorem rasterX_nonneg (p0 p1 : P3) (w : ℝ) : ∀ p, 0 ≤ rasterX p0 p1 w p := by
  intro p
  unfold rasterX
  split_ifs <;> norm_num

theorem blurred_nonneg (dx : ℝ × ℝ × ℝ) (w : ℝ) (p0 p1 : P3) :
    ∀ p, 0 ≤ blurred dx w p0 p1 p := by
  intro p
  unfold blurred
  exact blur3_nonneg _ _ _
    (blur2_nonneg _ _ _ (blur1_nonneg _ _ _ (rasterX_nonneg p0 p1 w))) p

theorem dNewPatch_nonneg (img : Image3) (p0 p1 : P3) (w : ℝ) :
    ∀ m, 0 ≤ dNewPatch img p0 p1 w m := fun _m =>
  blurred_nonneg img.dx w p0 p1 _

/-- The normalized working patch value at any index of the trimmed buffer
lies in `[0, 1]` (division-by-zero giving 0 included). -/
theorem dNorm_bounds (img : Image3) (p0 p1 : P3) (w : ℝ) (m : I3)
    (hm : (m.x, m.y, m.z) ∈ dSet img p0 p1 w) :
    0 ≤ dNewPatch img p0 p1 w m / dAmax img p0 p1 w ∧
      dNewPatch img p0 p1 w m / dAmax img p0 p1 w ≤ 1 := by
  obtain ⟨mx, my, mz⟩ := m
  have hne : (dSet img p0 p1 w).Nonempty := ⟨(mx, my, mz), hm⟩
  have hv : 0 ≤ dNewPatch img p0 p1 w ⟨mx, my, mz⟩ :=
    dNewPatch_nonneg img p0 p1 w _
  have hle : dNewPatch img p0 p1 w ⟨mx, my, mz⟩ ≤ dAmax img p0 p1 w := by
    have h := Finset.le_sup'
      (f := fun q : ℤ × ℤ × ℤ => dNewPatch img p0 p1 w ⟨q.1, q.2.1, q.2.2⟩) hm
    rw [dAmax, dif_pos hne]
    exact h
  have hA : 0 ≤ dAmax img p0 p1 w := le_trans hv hle
  refine ⟨div_nonneg hv hA, ?_⟩
  rcases eq_or_lt_of_le hA with h0 | h0
  · rw [← h0, div_zero]
    norm_num
  · exact (div_le_one h0).2 hle

/-- The composite step is idempotent for a new value in `[0, 1]`:
re-compositing the same normalized patch onto its own output is a no-op,
both without and with the binary threshold. -/
theorem compost_idem (binary : Bool) (n o : ℝ) (h0 : 0 ≤ n) (h1 : n ≤ 1) :
    compost binary n (compost binary n o) = compost binary n o := by
  unfold compost
  cases binary
  · simp only [Bool.false_eq_true, if_false]
    rw [← max_assoc, max_self]
  · simp only [if_true]
    by_cases hmo : max n o > 0.68
    · rw [if_pos hmo]
      rw [max_eq_right h1]
      rw [if_pos (by norm_num : (1 : ℝ) > 0.68)]
    · rw [if_neg hmo]
      rw [max_eq_left h0]
      rw [if_neg (by
        intro hn
        exact hmo (lt_of_lt_of_le hn (le_max_left n o)))]

/-! ### Structural lemmas for `Image3.draw` -/

open Classical in
/-- Unfolding equation for `Image3.draw`. -/
theorem draw_eq (img : Image3) (p0 p1 : P3) (w : ℝ) (binary : Bool)
    (channel : ℤ) :
    img.draw p0 p1 w binary channel =
      if segLen p0 p1 = 0 then none
      else if oobB (patchSize p0 p1 w) (lineCells p0 p1 w) then none
      else if (dSet img p0 p1 w).Nonempty then
        if dAmax img p0 p1 w = 0 then none
        else if 0 ≤ dRCh img.C channel ∧ dRCh img.C channel < (img.C : ℤ) then
          if dTrim1 img p0 p1 w =
              (viewOf img (segMid p0 p1) (patchRadius p0 p1 w)).l1 ∧
              dTrim2 img p0 p1 w =
                (viewOf img (segMid p0 p1) (patchRadius p0 p1 w)).l2 ∧
              dTrim3 img p0 p1 w =
                (viewOf img (segMid p0 p1) (patchRadius p0 p1 w)).l3 then
            some (dResult img p0 p1 w binary channel)
          else none
        else none
      else none :=
  rfl

/-- Inversion: a successful `draw` call determines the result image and all
its success conditions. -/
theorem draw_some_inv (img : Image3) (p0 p1 : P3) (w : ℝ) (binary : Bool)
    (channel : ℤ) (img1 : Image3)
    (h : img.draw p0 p1 w binary channel = some img1) :
    img1 = dResult img p0 p1 w binary channel ∧
    ¬segLen p0 p1 = 0 ∧
    ¬oobB (patchSize p0 p1 w) (lineCells p0 p1 w) = true ∧
    (dSet img p0 p1 w).Nonempty ∧
    ¬dAmax img p0 p1 w = 0 ∧
    (0 ≤ dRCh img.C channel ∧ dRCh img.C channel < (img.C : ℤ)) ∧
    (dTrim1 img p0 p1 w =
        (viewOf img (segMid p0 p1) (patchRadius p0 p1 w)).l1 ∧
      dTrim2 img p0 p1 w =
        (viewOf img (segMid p0 p1) (patchRadius p0 p1 w)).l2 ∧
      dTrim3 img p0 p1 w =
        (viewOf img (segMid p0 p1) (patchRadius p0 p1 w)).l3) := by
  rw [draw_eq] at h
  by_cases h1 : segLen p0 p1 = 0
  · rw [if_pos h1] at h; simp at h
  rw [if_neg h1] at h
  by_cases h2 : oobB (patchSize p0 p1 w) (lineCells p0 p1 w) = true
  · rw [if_pos h2] at h; simp at h
  rw [if_neg h2] at h
  by_cases h3 : (dSet img p0 p1 w).Nonempty
  case neg => rw [if_neg h3] at h; simp at h
  rw [if_pos h3] at h
  by_cases h3b : dAmax img p0 p1 w = 0
  · rw [if_pos h3b] at h; simp at h
  rw [if_neg h3b] at h
  by_cases h4 : 0 ≤ dRCh img.C channel ∧ dRCh img.C channel < (img.C : ℤ)
  case neg => rw [if_neg h4] at h; simp at h
  rw [if_pos h4] at h
  by_cases h5 : dTrim1 img p0 p1 w =
      (viewOf img (segMid p0 p1) (patchRadius p0 p1 w)).l1 ∧
      dTrim2 img p0 p1 w =
        (viewOf img (segMid p0 p1) (patchRadius p0 p1 w)).l2 ∧
      dTrim3 img p0 p1 w =
        (viewOf img (segMid p0 p1) (patchRadius p0 p1 w)).l3
  case neg => rw [if_neg h5] at h; simp at h
  rw [if_pos h5] at h
  exact ⟨(Option.some.inj h).symm, h1, h2, h3, h3b, h4, h5⟩

/-- Constructor: under the success conditions, `draw` returns `dResult`. -/
theorem draw_eq_some (img : Image3) (p0 p1 : P3) (w : ℝ) (binary : Bool)
    (channel : ℤ)
    (h1 : ¬segLen p0 p1 = 0)
    (h2 : ¬oobB (patchSize p0 p1 w) (lineCells p0 p1 w) = true)
    (h3 : (dSet img p0 p1 w).Nonempty)
    (h3b : ¬dAmax img p0 p1 w = 0)
    (h4 : 0 ≤ dRCh img.C channel ∧ dRCh img.C channel < (img.C : ℤ))
    (h5 : dTrim1 img p0 p1 w =
        (viewOf img (segMid p0 p1) (patchRadius p0 p1 w)).l1 ∧
      dTrim2 img p0 p1 w =
        (viewOf img (segMid p0 p1) (patchRadius p0 p1 w)).l2 ∧
      dTrim3 img p0 p1 w =
        (viewOf img (segMid p0 p1) (patchRadius p0 p1 w)).l3) :
    img.draw p0 p1 w binary channel =
      some (dResult img p0 p1 w binary channel) := by
  rw [draw_eq, if_neg h1, if_neg h2, if_pos h3, if_neg h3b, if_pos h4, if_pos h5]

/-- Field-wise extensionality for `Image3`. -/
theorem Image3.ext' (s t : Image3) (h1 : s.C = t.C) (h2 : s.n1 = t.n1)
    (h3 : s.n2 = t.n2) (h4 : s.n3 = t.n3) (h5 : s.data = t.data)
    (h6 : s.dx = t.dx) : s = t := by
  cases s; cases t
  simp_all

/-- Drawing the same segment onto its own output writes the same values:
`max` of equal normalized patches is absorbed, and the binary threshold is
stable on thresholded values. -/
theorem dResult_idem (img : Image3) (p0 p1 : P3) (w : ℝ) (binary : Bool)
    (channel : ℤ)
    (h5 : dTrim1 img p0 p1 w =
        (viewOf img (segMid p0 p1) (patchRadius p0 p1 w)).l1 ∧
      dTrim2 img p0 p1 w =
        (viewOf img (segMid p0 p1) (patchRadius p0 p1 w)).l2 ∧
      dTrim3 img p0 p1 w =
        (viewOf img (segMid p0 p1) (patchRadius p0 p1 w)).l3) :
    dResult (dResult img p0 p1 w binary channel) p0 p1 w binary channel =
      dResult img p0 p1 w binary channel := by
  obtain ⟨h51, h52, h53⟩ := h5
  refine Image3.ext' _ _ rfl rfl rfl rfl ?_ rfl
  funext ch a b c
  show (if ch = dRCh img.C channel ∧
      (viewOf img (segMid p0 p1) (patchRadius p0 p1 w)).b1 ≤ a ∧
      a < (viewOf img (segMid p0 p1) (patchRadius p0 p1 w)).b1 +
        (viewOf img (segMid p0 p1) (patchRadius p0 p1 w)).l1 ∧
      (viewOf img (segMid p0 p1) (patchRadius p0 p1 w)).b2 ≤ b ∧
      b < (viewOf img (segMid p0 p1) (patchRadius p0 p1 w)).b2 +
        (viewOf img (segMid p0 p1) (patchRadius p0 p1 w)).l2 ∧
      (viewOf img (segMid p0 p1) (patchRadius p0 p1 w)).b3 ≤ c ∧
      c < (viewOf img (segMid p0 p1) (patchRadius p0 p1 w)).b3 +
        (viewOf img (segMid p0 p1) (patchRadius p0 p1 w)).l3 then
    compost binary
      (dNewPatch img p0 p1 w
          ⟨a - (viewOf img (segMid p0 p1) (patchRadius p0 p1 w)).b1,
            b - (viewOf img (segMid p0 p1) (patchRadius p0 p1 w)).b2,
            c - (viewOf img (segMid p0 p1) (patchRadius p0 p1 w)).b3⟩ /
        dAmax img p0 p1 w)
      ((dResult img p0 p1 w binary channel).data ch a b c)
    else (dResult img p0 p1 w binary channel).data ch a b c) =
    (dResult img p0 p1 w binary channel).data ch a b c
  by_cases hc : ch = dRCh img.C channel ∧
      (viewOf img (segMid p0 p1) (patchRadius p0 p1 w)).b1 ≤ a ∧
      a < (viewOf img (segMid p0 p1) (patchRadius p0 p1 w)).b1 +
        (viewOf img (segMid p0 p1) (patchRadius p0 p1 w)).l1 ∧
      (viewOf img (segMid p0 p1) (patchRadius p0 p1 w)).b2 ≤ b ∧
      b < (viewOf img (segMid p0 p1) (patchRadius p0 p1 w)).b2 +
        (viewOf img (segMid p0 p1) (patchRadius p0 p1 w)).l2 ∧
      (viewOf img (segMid p0 p1) (patchRadius p0 p1 w)).b3 ≤ c ∧
      c < (viewOf img (segMid p0 p1) (patchRadius p0 p1 w)).b3 +
        (viewOf img (segMid p0 p1) (patchRadius p0 p1 w)).l3
  · rw [if_pos hc]
    have hXd : (dResult img p0 p1 w binary channel).data ch a b c =
        compost binary
          (dNewPatch img p0 p1 w
              ⟨a - (viewOf img (segMid p0 p1) (patchRadius p0 p1 w)).b1,
                b - (viewOf img (segMid p0 p1) (patchRadius p0 p1 w)).b2,
                c - (viewOf img (segMid p0 p1) (patchRadius p0 p1 w)).b3⟩ /
            dAmax img p0 p1 w)
          (img.data ch a b c) := by
      show (if ch = dRCh img.C channel ∧
          (viewOf img (segMid p0 p1) (patchRadius p0 p1 w)).b1 ≤ a ∧
          a < (viewOf img (segMid p0 p1) (patchRadius p0 p1 w)).b1 +
            (viewOf img (segMid p0 p1) (patchRadius p0 p1 w)).l1 ∧
          (viewOf img (segMid p0 p1) (patchRadius p0 p1 w)).b2 ≤ b ∧
          b < (viewOf img (segMid p0 p1) (patchRadius p0 p1 w)).b2 +
            (viewOf img (segMid p0 p1) (patchRadius p0 p1 w)).l2 ∧
          (viewOf img (segMid p0 p1) (patchRadius p0 p1 w)).b3 ≤ c ∧
          c < (viewOf img (segMid p0 p1) (patchRadius p0 p1 w)).b3 +
            (viewOf img (segMid p0 p1) (patchRadius p0 p1 w)).l3 then
        compost binary
          (dNewPatch img p0 p1 w
              ⟨a - (viewOf img (segMid p0 p1) (patchRadius p0 p1 w)).b1,
                b - (viewOf img (segMid p0 p1) (patchRadius p0 p1 w)).b2,
                c - (viewOf img (segMid p0 p1) (patchRadius p0 p1 w)).b3⟩ /
            dAmax img p0 p1 w)
          (img.data ch a b c)
        else img.data ch a b c) = _
      rw [if_pos hc]
    rw [hXd]
    obtain ⟨-, ha1, ha2, hb1, hb2, hc1, hc2⟩ := hc
    have hmem :
        ((a - (viewOf img (segMid p0 p1) (patchRadius p0 p1 w)).b1 : ℤ),
          ((b - (viewOf img (segMid p0 p1) (patchRadius p0 p1 w)).b2 : ℤ),
            (c - (viewOf img (segMid p0 p1) (patchRadius p0 p1 w)).b3 : ℤ))) ∈
          dSet img p0 p1 w := by
      unfold dSet
      simp only [Finset.mem_product, Finset.mem_Icc]
      omega
    have hb := dNorm_bounds img p0 p1 w
      ⟨a - (viewOf img (segMid p0 p1) (patchRadius p0 p1 w)).b1,
        b - (viewOf img (segMid p0 p1) (patchRadius p0 p1 w)).b2,
        c - (viewOf img (segMid p0 p1) (patchRadius p0 p1 w)).b3⟩ hmem
    exact compost_idem binary _ _ hb.1 hb.2
  · rw [if_neg hc]

/-- C7: re-rendering an identical segment (same endpoints, width, channel,
binary flag) onto a buffer that already contains the result of rendering
that segment leaves the buffer unchanged: the second `draw_line_segment`
call composites the per-voxel maximum of equal values (and the binary
threshold is stable on its own output). -/
theorem C7_idempotent (img : Image3) (p0 p1 : P3) (w : ℝ) (binary : Bool)
    (channel : ℤ) (img1 : Image3)
    (h : img.draw p0 p1 w binary channel = some img1) :
    img1.draw p0 p1 w binary channel = some img1 := by
  obtain ⟨hres, h1, h2, h3, h3b, h4, h5⟩ :=
    draw_some_inv img p0 p1 w binary channel img1 h
  subst hres
  have h3' : (dSet (dResult img p0 p1 w binary channel) p0 p1 w).Nonempty := h3
  have h3b' : ¬dAmax (dResult img p0 p1 w binary channel) p0 p1 w = 0 := h3b
  have h4' : 0 ≤ dRCh (dResult img p0 p1 w binary channel).C channel ∧
      dRCh (dResult img p0 p1 w binary channel).C channel <
        ((dResult img p0 p1 w binary channel).C : ℤ) := h4
  have h5' : dTrim1 (dResult img p0 p1 w binary channel) p0 p1 w =
      (viewOf (dResult img p0 p1 w binary channel) (segMid p0 p1)
        (patchRadius p0 p1 w)).l1 ∧
      dTrim2 (dResult img p0 p1 w binary channel) p0 p1 w =
        (viewOf (dResult img p0 p1 w binary channel) (segMid p0 p1)
          (patchRadius p0 p1 w)).l2 ∧
      dTrim3 (dResult img p0 p1 w binary channel) p0 p1 w =
        (viewOf (dResult img p0 p1 w binary channel) (segMid p0 p1)
          (patchRadius p0 p1 w)).l3 := h5
  rw [draw_eq_some _ p0 p1 w binary channel h1 h2 h3' h3b' h4' h5']
  exact congrArg some (dResult_idem img p0 p1 w binary channel h5)

/-- Value of the result image inside the composite region. -/
theorem dResult_data_pos (img : Image3) (p0 p1 : P3) (w : ℝ) (binary : Bool)
    (channel : ℤ) (ch a b c : ℤ)
    (h : ch = dRCh img.C channel ∧
      (viewOf img (segMid p0 p1) (patchRadius p0 p1 w)).b1 ≤ a ∧
      a < (viewOf img (segMid p0 p1) (patchRadius p0 p1 w)).b1 +
        (viewOf img (segMid p0 p1) (patchRadius p0 p1 w)).l1 ∧
      (viewOf img (segMid p0 p1) (patchRadius p0 p1 w)).b2 ≤ b ∧
      b < (viewOf img (segMid p0 p1) (patchRadius p0 p1 w)).b2 +
        (viewOf img (segMid p0 p1) (patchRadius p0 p1 w)).l2 ∧
      (viewOf img (segMid p0 p1) (patchRadius p0 p1 w)).b3 ≤ c ∧
      c < (viewOf img (segMid p0 p1) (patchRadius p0 p1 w)).b3 +
        (viewOf img (segMid p0 p1) (patchRadius p0 p1 w)).l3) :
    (dResult img p0 p1 w binary channel).data ch a b c =
      compost binary
        (dNewPatch img p0 p1 w
            ⟨a - (viewOf img (segMid p0 p1) (patchRadius p0 p1 w)).b1,
              b - (viewOf img (segMid p0 p1) (patchRadius p0 p1 w)).b2,
              c - (viewOf img (segMid p0 p1) (patchRadius p0 p1 w)).b3⟩ /
          dAmax img p0 p1 w)
        (img.data ch a b c) := by
  show (if _ then _ else _) = _
  rw [if_pos h]

/-- Outside the composite region (wrong channel or out of the view), the
result image agrees with the input image. -/
theorem dResult_data_neg (img : Image3) (p0 p1 : P3) (w : ℝ) (binary : Bool)
    (channel : ℤ) (ch a b c : ℤ)
    (h : ¬(ch = dRCh img.C channel ∧
      (viewOf img (segMid p0 p1) (patchRadius p0 p1 w)).b1 ≤ a ∧
      a < (viewOf img (segMid p0 p1) (patchRadius p0 p1 w)).b1 +
        (viewOf img (segMid p0 p1) (patchRadius p0 p1 w)).l1 ∧
      (viewOf img (segMid p0 p1) (patchRadius p0 p1 w)).b2 ≤ b ∧
      b < (viewOf img (segMid p0 p1) (patchRadius p0 p1 w)).b2 +
        (viewOf img (segMid p0 p1) (patchRadius p0 p1 w)).l2 ∧
      (viewOf img (segMid p0 p1) (patchRadius p0 p1 w)).b3 ≤ c ∧
      c < (viewOf img (segMid p0 p1) (patchRadius p0 p1 w)).b3 +
        (viewOf img (segMid p0 p1) (patchRadius p0 p1 w)).l3)) :
    (dResult img p0 p1 w binary channel).data ch a b c = img.data ch a b c := by
  show (if _ then _ else _) = _
  rw [if_neg h]

/-- C10: with the default channel argument -1, `draw_line_segment`
composites into (and thresholds) exactly the last channel of the buffer:
the call behaves identically to an explicit `channel = C-1`, and every
channel other than `C-1` is left untouched. -/
theorem C10_default_channel (img : Image3) (p0 p1 : P3) (w : ℝ)
    (binary : Bool) :
    img.draw p0 p1 w binary (-1) =
      img.draw p0 p1 w binary ((img.C : ℤ) - 1) ∧
    (∀ img1, img.draw p0 p1 w binary (-1) = some img1 →
      ∀ ch a b c, ¬ch = (img.C : ℤ) - 1 →
        img1.data ch a b c = img.data ch a b c) := by
  have hrch : dRCh img.C (-1) = dRCh img.C ((img.C : ℤ) - 1) := by
    unfold dRCh
    split_ifs <;> omega
  have hval : dRCh img.C (-1) = (img.C : ℤ) - 1 := by
    unfold dRCh
    rw [if_pos (by norm_num : (-1 : ℤ) < 0)]
    ring
  have hres : dResult img p0 p1 w binary (-1) =
      dResult img p0 p1 w binary ((img.C : ℤ) - 1) := by
    unfold dResult
    rw [hrch]
  constructor
  · rw [draw_eq, draw_eq, hrch, hres]
  · intro img1 h ch a b c hch
    obtain ⟨hres1, -⟩ := draw_some_inv img p0 p1 w binary (-1) img1 h
    subst hres1
    refine dResult_data_neg img p0 p1 w binary (-1) ch a b c ?_
    intro hcond
    exact hch (hval ▸ hcond.1)

/-- C5 amended: a `binary=False` draw whose run is not NaN-poisoned (the
trimmed working buffer has a nonzero maximum, which model success implies)
never decreases any voxel: the composite takes a maximum with the existing
value (src/image.py:153).  The original claim fails two ways: `binary=True`
thresholding zeroes voxels with prior intensity in (0, 0.68] (see the
counterexample), and a `binary=False` call whose trimmed working buffer is
identically zero divides 0.0/0.0 and overwrites the whole target region
with NaN (see the all-zero-patch run below), which is not monotone
either. -/
theorem C5_amended (img : Image3) (p0 p1 : P3) (w : ℝ) (channel : ℤ)
    (img1 : Image3) (h : img.draw p0 p1 w false channel = some img1) :
    ∀ ch a b c, img.data ch a b c ≤ img1.data ch a b c := by
  obtain ⟨hres, -⟩ := draw_some_inv img p0 p1 w false channel img1 h
  subst hres
  intro ch a b c
  by_cases hc : ch = dRCh img.C channel ∧
      (viewOf img (segMid p0 p1) (patchRadius p0 p1 w)).b1 ≤ a ∧
      a < (viewOf img (segMid p0 p1) (patchRadius p0 p1 w)).b1 +
        (viewOf img (segMid p0 p1) (patchRadius p0 p1 w)).l1 ∧
      (viewOf img (segMid p0 p1) (patchRadius p0 p1 w)).b2 ≤ b ∧
      b < (viewOf img (segMid p0 p1) (patchRadius p0 p1 w)).b2 +
        (viewOf img (segMid p0 p1) (patchRadius p0 p1 w)).l2 ∧
      (viewOf img (segMid p0 p1) (patchRadius p0 p1 w)).b3 ≤ c ∧
      c < (viewOf img (segMid p0 p1) (patchRadius p0 p1 w)).b3 +
        (viewOf img (segMid p0 p1) (patchRadius p0 p1 w)).l3
  · rw [dResult_data_pos img p0 p1 w false channel ch a b c hc]
    unfold compost
    simp only [Bool.false_eq_true, if_false]
    exact le_max_right _ _
  · rw [dResult_data_neg img p0 p1 w false channel ch a b c hc]

/-! ### A concrete successful rendering scenario

One channel, 21×21×21 zeros, unit spacing; segment (10,10,10)-(10,10,12),
width 1, channel 0.  The working buffer has radius 3 (edge 7), the rasterized
line occupies cells (3,3,k) for k ∈ [1,5] (twice the segment length, per the
placement bug, but still inside the buffer for this short segment), and the
crop view is fully interior, so the draw completes. -/

/-- A 1-channel 21×21×21 zero volume with unit spacing. -/
noncomputable def img21 : Image3 := ⟨1, 21, 21, 21, fun _ _ _ _ => 0, (1, 1, 1)⟩

/-- First endpoint of the scenario segment. -/
noncomputable def c5p0 : P3 := ⟨10, 10, 10⟩

/-- Second endpoint of the scenario segment. -/
noncomputable def c5p1 : P3 := ⟨10, 10, 12⟩

theorem c5_segLen : segLen c5p0 c5p1 = 2 := by
  have h : ((10 : ℝ) - 10) ^ 2 + ((10 : ℝ) - 10) ^ 2 + ((10 : ℝ) - 12) ^ 2 =
      2 ^ 2 := by norm_num
  simp only [segLen, c5p0, c5p1]
  rw [h, Real.sqrt_sq (by norm_num : (0 : ℝ) ≤ 2)]

theorem c5_unitDir : unitDir c5p0 c5p1 = ⟨0, 0, -1⟩ := by
  simp only [unitDir, c5_segLen]
  simp only [c5p0, c5p1]
  norm_num

theorem c5_mid : segMid c5p0 c5p1 = ⟨10, 10, 11⟩ := by
  simp only [segMid, c5p0, c5p1]
  norm_num

theorem c5_radius : patchRadius c5p0 c5p1 1 = 3 := by
  simp only [patchRadius, halfL, overhang, c5_segLen]
  rw [ceil_eval (show (2 : ℝ) / 2 = ((1 : ℤ) : ℝ) by norm_num),
    pyInt_eval (show (2 * 1 : ℝ) = ((2 : ℤ) : ℝ) by norm_num)]
  norm_num

theorem c5_ps : patchSize c5p0 c5p1 1 = 7 := by
  simp only [patchSize, c5_radius]
  norm_num

theorem c5_start : lineStart c5p0 c5p1 1 = ⟨3, 3, 1⟩ := by
  simp only [lineStart, c5_segLen, c5_unitDir, c5_radius, I3.mk.injEq]
  refine ⟨rhe_eval ?_, rhe_eval ?_, rhe_eval ?_⟩ <;> push_cast <;> norm_num

theorem c5_end : lineEnd c5p0 c5p1 1 = ⟨3, 3, 5⟩ := by
  simp only [lineEnd, c5_segLen, c5_unitDir, c5_radius, I3.mk.injEq]
  refine ⟨rhe_eval ?_, rhe_eval ?_, rhe_eval ?_⟩ <;> push_cast <;> norm_num

theorem c5_linspace_x : linspace 3 3 5 = [(3 : ℚ), 3, 3, 3, 3] := by
  rw [linspace_of_two_le 3 3 5 (by norm_num),
    show List.range 5 = [0, 1, 2, 3, 4] from by decide]
  simp only [List.map_cons, List.map_nil]
  norm_num

theorem c5_linspace_z : linspace 1 5 5 = [(1 : ℚ), 2, 3, 4, 5] := by
  rw [linspace_of_two_le 1 5 5 (by norm_num),
    show List.range 5 = [0, 1, 2, 3, 4] from by decide]
  simp only [List.map_cons, List.map_nil]
  norm_num

theorem c5_cells : lineCells c5p0 c5p1 1 =
    [⟨3, 3, 1⟩, ⟨3, 3, 2⟩, ⟨3, 3, 3⟩, ⟨3, 3, 4⟩, ⟨3, 3, 5⟩] := by
  have r1 : rheQ (1 : ℚ) = 1 := rheQ_eval (by norm_num)
  have r2 : rheQ (2 : ℚ) = 2 := rheQ_eval (by norm_num)
  have r3 : rheQ (3 : ℚ) = 3 := rheQ_eval (by norm_num)
  have r4 : rheQ (4 : ℚ) = 4 := rheQ_eval (by norm_num)
  have r5 : rheQ (5 : ℚ) = 5 := rheQ_eval (by norm_num)
  have hnp : lineNp (⟨3, 3, 1⟩ : I3) ⟨3, 3, 5⟩ = 5 := by decide
  unfold lineCells
  rw [c5_start, c5_end]
  simp only [lineNd]
  rw [hnp, c5_linspace_x, c5_linspace_z]
  simp only [List.map_cons, List.map_nil, r1, r2, r3, r4, r5]
  decide

theorem c5_oob : oobB (patchSize c5p0 c5p1 1) (lineCells c5p0 c5p1 1) = false := by
  rw [c5_ps, c5_cells]
  decide

theorem c5_pyInt10 : pyInt (10 : ℝ) = 10 :=
  pyInt_eval (show (10 : ℝ) = ((10 : ℤ) : ℝ) by norm_num)

theorem c5_pyInt11 : pyInt (11 : ℝ) = 11 :=
  pyInt_eval (show (11 : ℝ) = ((11 : ℤ) : ℝ) by norm_num)

theorem c5_pads : padsOf img21 (segMid c5p0 c5p1) (patchRadius c5p0 c5p1 1) =
    ⟨0, 0, 0, 0, 0, 0⟩ := by
  rw [c5_mid, c5_radius]
  simp only [padsOf, img21, c5_pyInt10, c5_pyInt11]
  decide

theorem c5_view_l1 :
    (viewOf img21 (segMid c5p0 c5p1) (patchRadius c5p0 c5p1 1)).l1 = 7 := by
  rw [c5_mid, c5_radius]
  simp only [viewOf, img21, c5_pyInt10, c5_pyInt11]
  decide

theorem c5_view_l2 :
    (viewOf img21 (segMid c5p0 c5p1) (patchRadius c5p0 c5p1 1)).l2 = 7 := by
  rw [c5_mid, c5_radius]
  simp only [viewOf, img21, c5_pyInt10, c5_pyInt11]
  decide

theorem c5_view_l3 :
    (viewOf img21 (segMid c5p0 c5p1) (patchRadius c5p0 c5p1 1)).l3 = 7 := by
  rw [c5_mid, c5_radius]
  simp only [viewOf, img21, c5_pyInt10, c5_pyInt11]
  decide

theorem c5_view_b1 :
    (viewOf img21 (segMid c5p0 c5p1) (patchRadius c5p0 c5p1 1)).b1 = 7 := by
  rw [c5_mid, c5_radius]
  simp only [viewOf, img21, c5_pyInt10, c5_pyInt11]
  decide

theorem c5_view_b2 :
    (viewOf img21 (segMid c5p0 c5p1) (patchRadius c5p0 c5p1 1)).b2 = 7 := by
  rw [c5_mid, c5_radius]
  simp only [viewOf, img21, c5_pyInt10, c5_pyInt11]
  decide

theorem c5_view_b3 :
    (viewOf img21 (segMid c5p0 c5p1) (patchRadius c5p0 c5p1 1)).b3 = 8 := by
  rw [c5_mid, c5_radius]
  simp only [viewOf, img21, c5_pyInt10, c5_pyInt11]
  decide

theorem c5_trim1 : dTrim1 img21 c5p0 c5p1 1 = 7 := by
  unfold dTrim1
  rw [c5_pads, c5_ps]
  decide

theorem c5_trim2 : dTrim2 img21 c5p0 c5p1 1 = 7 := by
  unfold dTrim2
  rw [c5_pads, c5_ps]
  decide

theorem c5_trim3 : dTrim3 img21 c5p0 c5p1 1 = 7 := by
  unfold dTrim3
  rw [c5_pads, c5_ps]
  decide

theorem c5_set : dSet img21 c5p0 c5p1 1 =
    Finset.Icc 0 6 ×ˢ (Finset.Icc 0 6 ×ˢ Finset.Icc 0 6) := by
  unfold dSet
  rw [c5_trim1, c5_trim2, c5_trim3]
  norm_num

theorem c5_nonempty : (dSet img21 c5p0 c5p1 1).Nonempty :=
  ⟨(0, (0, 0)), by rw [c5_set]; decide⟩

theorem c5_h1 : ¬segLen c5p0 c5p1 = 0 := by
  rw [c5_segLen]; norm_num

theorem c5_h2 : ¬oobB (patchSize c5p0 c5p1 1) (lineCells c5p0 c5p1 1) = true := by
  rw [c5_oob]; simp

theorem c5_h4 : 0 ≤ dRCh img21.C 0 ∧ dRCh img21.C 0 < (img21.C : ℤ) := by
  unfold dRCh
  simp only [img21]
  norm_num

theorem c5_h5 : dTrim1 img21 c5p0 c5p1 1 =
    (viewOf img21 (segMid c5p0 c5p1) (patchRadius c5p0 c5p1 1)).l1 ∧
    dTrim2 img21 c5p0 c5p1 1 =
      (viewOf img21 (segMid c5p0 c5p1) (patchRadius c5p0 c5p1 1)).l2 ∧
    dTrim3 img21 c5p0 c5p1 1 =
      (viewOf img21 (segMid c5p0 c5p1) (patchRadius c5p0 c5p1 1)).l3 := by
  rw [c5_trim1, c5_trim2, c5_trim3, c5_view_l1, c5_view_l2, c5_view_l3]
  exact ⟨rfl, rfl, rfl⟩


/-! ### Evaluating the Gaussian blur of the scenario -/

theorem sumIcc22 (g : ℤ → ℝ) :
    ∑ d ∈ Finset.Icc (-2 : ℤ) 2, g d =
      g (-2) + g (-1) + g 0 + g 1 + g 2 := by
  rw [show Finset.Icc (-2 : ℤ) 2 = {-2, -1, 0, 1, 2} from by decide]
  rw [Finset.sum_insert (by decide), Finset.sum_insert (by decide),
    Finset.sum_insert (by decide), Finset.sum_insert (by decide),
    Finset.sum_singleton]
  ring

theorem c5_gRad : gRad ((1 : ℝ) / 2) = 2 := by
  unfold gRad pyInt
  rw [if_pos (by norm_num : (0 : ℝ) ≤ 4 * ((1 : ℝ) / 2) + 1 / 2)]
  rw [Int.floor_eq_iff]
  constructor <;> push_cast <;> norm_num

theorem c5_blur : blurred img21.dx 1 c5p0 c5p1 =
    blur3 7 ((1 : ℝ) / 2)
      (blur2 7 ((1 : ℝ) / 2)
        (blur1 7 ((1 : ℝ) / 2) (rasterX c5p0 c5p1 1))) := by
  simp only [blurred, c5_ps, img21]
  norm_num

theorem c5_raster (p : I3) : rasterX c5p0 c5p1 1 p =
    if p.x = 3 ∧ p.y = 3 ∧ 1 ≤ p.z ∧ p.z ≤ 5 then 1 else 0 := by
  obtain ⟨px, py, pz⟩ := p
  unfold rasterX
  rw [c5_cells, c5_ps]
  rw [show ([⟨3, 3, 1⟩, ⟨3, 3, 2⟩, ⟨3, 3, 3⟩, ⟨3, 3, 4⟩, ⟨3, 3, 5⟩] :
      List I3).map (wrap3 7) =
      [⟨3, 3, 1⟩, ⟨3, 3, 2⟩, ⟨3, 3, 3⟩, ⟨3, 3, 4⟩, ⟨3, 3, 5⟩] from by decide]
  simp only [List.mem_cons, List.not_mem_nil, or_false, I3.mk.injEq]
  have hiff : ((px = 3 ∧ py = 3 ∧ pz = 1) ∨ (px = 3 ∧ py = 3 ∧ pz = 2) ∨
      (px = 3 ∧ py = 3 ∧ pz = 3) ∨ (px = 3 ∧ py = 3 ∧ pz = 4) ∨
      (px = 3 ∧ py = 3 ∧ pz = 5)) ↔
      (px = 3 ∧ py = 3 ∧ 1 ≤ pz ∧ pz ≤ 5) := by omega
  rw [if_congr hiff rfl rfl]

theorem c5_F1a (b c : ℤ) :
    blur1 7 ((1 : ℝ) / 2) (rasterX c5p0 c5p1 1) ⟨1, b, c⟩ =
      gK ((1 : ℝ) / 2) 2 * (if b = 3 ∧ 1 ≤ c ∧ c ≤ 5 then 1 else 0) := by
  simp only [blur1]
  rw [c5_gRad, sumIcc22]
  norm_num [clampIdx, c5_raster]

theorem c5_F1b (b c : ℤ) :
    blur1 7 ((1 : ℝ) / 2) (rasterX c5p0 c5p1 1) ⟨3, b, c⟩ =
      gK ((1 : ℝ) / 2) 0 * (if b = 3 ∧ 1 ≤ c ∧ c ≤ 5 then 1 else 0) := by
  simp only [blur1]
  rw [c5_gRad, sumIcc22]
  norm_num [clampIdx, c5_raster]

theorem c5_F2a (c : ℤ) :
    blur2 7 ((1 : ℝ) / 2)
      (blur1 7 ((1 : ℝ) / 2) (rasterX c5p0 c5p1 1)) ⟨1, 3, c⟩ =
      gK ((1 : ℝ) / 2) 0 *
        (gK ((1 : ℝ) / 2) 2 * (if 1 ≤ c ∧ c ≤ 5 then 1 else 0)) := by
  simp only [blur2]
  rw [c5_gRad, sumIcc22]
  norm_num [clampIdx, c5_F1a]

theorem c5_F2b (c : ℤ) :
    blur2 7 ((1 : ℝ) / 2)
      (blur1 7 ((1 : ℝ) / 2) (rasterX c5p0 c5p1 1)) ⟨3, 3, c⟩ =
      gK ((1 : ℝ) / 2) 0 *
        (gK ((1 : ℝ) / 2) 0 * (if 1 ≤ c ∧ c ≤ 5 then 1 else 0)) := by
  simp only [blur2]
  rw [c5_gRad, sumIcc22]
  norm_num [clampIdx, c5_F1b]

theorem c5_gW : gW ((1 : ℝ) / 2) =
    gw ((1 : ℝ) / 2) (-2) + gw ((1 : ℝ) / 2) (-1) +
      gw ((1 : ℝ) / 2) 0 + gw ((1 : ℝ) / 2) 1 +
      gw ((1 : ℝ) / 2) 2 := by
  unfold gW
  rw [c5_gRad]
  exact sumIcc22 _

theorem c5_gW_pos : 0 < gW ((1 : ℝ) / 2) := by
  rw [c5_gW]
  unfold gw
  positivity

theorem c5_K_pos (d : ℤ) : 0 < gK ((1 : ℝ) / 2) d :=
  div_pos (gw_pos _ _) c5_gW_pos

theorem c5_Ksum :
    gK ((1 : ℝ) / 2) (-2) + gK ((1 : ℝ) / 2) (-1) +
      gK ((1 : ℝ) / 2) 0 + gK ((1 : ℝ) / 2) 1 +
      gK ((1 : ℝ) / 2) 2 = 1 := by
  unfold gK
  rw [div_add_div_same, div_add_div_same, div_add_div_same, div_add_div_same]
  rw [← c5_gW]
  exact div_self (ne_of_gt c5_gW_pos)

theorem c5_F3a :
    blur3 7 ((1 : ℝ) / 2)
      (blur2 7 ((1 : ℝ) / 2)
        (blur1 7 ((1 : ℝ) / 2) (rasterX c5p0 c5p1 1))) ⟨1, 3, 3⟩ =
      gK ((1 : ℝ) / 2) 0 * gK ((1 : ℝ) / 2) 2 := by
  simp only [blur3]
  rw [c5_gRad, sumIcc22]
  norm_num [clampIdx, c5_F2a]
  linear_combination (gK ((1 : ℝ) / 2) 0 * gK ((1 : ℝ) / 2) 2) * c5_Ksum

theorem c5_F3b :
    blur3 7 ((1 : ℝ) / 2)
      (blur2 7 ((1 : ℝ) / 2)
        (blur1 7 ((1 : ℝ) / 2) (rasterX c5p0 c5p1 1))) ⟨3, 3, 3⟩ =
      gK ((1 : ℝ) / 2) 0 * gK ((1 : ℝ) / 2) 0 := by
  simp only [blur3]
  rw [c5_gRad, sumIcc22]
  norm_num [clampIdx, c5_F2b]
  linear_combination (gK ((1 : ℝ) / 2) 0 * gK ((1 : ℝ) / 2) 0) * c5_Ksum

theorem c5_np1 : dNewPatch img21 c5p0 c5p1 1 ⟨1, 3, 3⟩ =
    gK ((1 : ℝ) / 2) 0 * gK ((1 : ℝ) / 2) 2 := by
  simp only [dNewPatch]
  rw [c5_pads, c5_ps, c5_blur]
  norm_num [pyIdx, c5_F3a]

theorem c5_np2 : dNewPatch img21 c5p0 c5p1 1 ⟨3, 3, 3⟩ =
    gK ((1 : ℝ) / 2) 0 * gK ((1 : ℝ) / 2) 0 := by
  simp only [dNewPatch]
  rw [c5_pads, c5_ps, c5_blur]
  norm_num [pyIdx, c5_F3b]

theorem c5_amax_lb : gK ((1 : ℝ) / 2) 0 * gK ((1 : ℝ) / 2) 0 ≤
    dAmax img21 c5p0 c5p1 1 := by
  rw [← c5_np2]
  have h := Finset.le_sup'
    (f := fun m : ℤ × ℤ × ℤ => dNewPatch img21 c5p0 c5p1 1 ⟨m.1, m.2.1, m.2.2⟩)
    (show ((3 : ℤ), ((3 : ℤ), (3 : ℤ))) ∈ dSet img21 c5p0 c5p1 1 from by
      rw [c5_set]; decide)
  unfold dAmax
  rw [dif_pos c5_nonempty]
  exact h

theorem c5_A_pos : 0 < dAmax img21 c5p0 c5p1 1 :=
  lt_of_lt_of_le (mul_pos (c5_K_pos 0) (c5_K_pos 0)) c5_amax_lb

/-- The first rendering pass of the scenario: the updated image. -/
noncomputable def c5step1 : Image3 := dResult img21 c5p0 c5p1 1 false 0

/-- The second (binary) rendering pass of the scenario. -/
noncomputable def c5step2 : Image3 := dResult c5step1 c5p0 c5p1 1 true 0

theorem c5_h6 : ¬dAmax img21 c5p0 c5p1 1 = 0 := ne_of_gt c5_A_pos

theorem c5_draw1 : img21.draw c5p0 c5p1 1 false 0 = some c5step1 :=
  draw_eq_some img21 c5p0 c5p1 1 false 0 c5_h1 c5_h2 c5_nonempty c5_h6 c5_h4
    c5_h5

theorem c5_draw2 : c5step1.draw c5p0 c5p1 1 true 0 = some c5step2 := by
  have h3' : (dSet c5step1 c5p0 c5p1 1).Nonempty := c5_nonempty
  have h6' : ¬dAmax c5step1 c5p0 c5p1 1 = 0 := c5_h6
  have h4' : 0 ≤ dRCh c5step1.C 0 ∧ dRCh c5step1.C 0 < (c5step1.C : ℤ) := c5_h4
  have h5' : dTrim1 c5step1 c5p0 c5p1 1 =
      (viewOf c5step1 (segMid c5p0 c5p1) (patchRadius c5p0 c5p1 1)).l1 ∧
      dTrim2 c5step1 c5p0 c5p1 1 =
        (viewOf c5step1 (segMid c5p0 c5p1) (patchRadius c5p0 c5p1 1)).l2 ∧
      dTrim3 c5step1 c5p0 c5p1 1 =
        (viewOf c5step1 (segMid c5p0 c5p1) (patchRadius c5p0 c5p1 1)).l3 := c5_h5
  exact draw_eq_some c5step1 c5p0 c5p1 1 true 0 c5_h1 c5_h2 h3' h6' h4' h5'

theorem c5_n_pos :
    0 < dNewPatch img21 c5p0 c5p1 1 ⟨1, 3, 3⟩ / dAmax img21 c5p0 c5p1 1 :=
  div_pos (by rw [c5_np1]; exact mul_pos (c5_K_pos 0) (c5_K_pos 2)) c5_A_pos

theorem c5_gw0 : gw ((1 : ℝ) / 2) 0 = 1 := by
  unfold gw
  norm_num

theorem c5_gw2 : gw ((1 : ℝ) / 2) 2 = Real.exp (-8) := by
  unfold gw
  norm_num

theorem c5_n_le :
    dNewPatch img21 c5p0 c5p1 1 ⟨1, 3, 3⟩ / dAmax img21 c5p0 c5p1 1 ≤ 0.68 := by
  rw [c5_np1]
  have h1 : gK ((1 : ℝ) / 2) 0 * gK ((1 : ℝ) / 2) 2 / dAmax img21 c5p0 c5p1 1 ≤
      gK ((1 : ℝ) / 2) 0 * gK ((1 : ℝ) / 2) 2 /
        (gK ((1 : ℝ) / 2) 0 * gK ((1 : ℝ) / 2) 0) :=
    div_le_div_of_nonneg_left
      (le_of_lt (mul_pos (c5_K_pos 0) (c5_K_pos 2)))
      (mul_pos (c5_K_pos 0) (c5_K_pos 0)) c5_amax_lb
  refine le_trans h1 ?_
  rw [mul_div_mul_left _ _ (ne_of_gt (c5_K_pos 0))]
  have h2 : gK ((1 : ℝ) / 2) 2 / gK ((1 : ℝ) / 2) 0 =
      gw ((1 : ℝ) / 2) 2 / gw ((1 : ℝ) / 2) 0 := by
    unfold gK
    rw [div_div_div_comm, div_self (ne_of_gt c5_gW_pos), div_one]
  rw [h2, c5_gw0, c5_gw2, div_one]
  have h9 : (9 : ℝ) ≤ Real.exp 8 := by
    have := Real.add_one_le_exp 8
    linarith
  have h3 : Real.exp (-8) = 1 / Real.exp 8 := by
    rw [Real.exp_neg]
    ring
  rw [h3]
  calc 1 / Real.exp 8 ≤ 1 / 9 := by
        apply one_div_le_one_div_of_le
        · norm_num
        · exact h9
    _ ≤ 0.68 := by norm_num

theorem c5_cond : (0 : ℤ) = dRCh img21.C 0 ∧
    (viewOf img21 (segMid c5p0 c5p1) (patchRadius c5p0 c5p1 1)).b1 ≤ 8 ∧
    (8 : ℤ) < (viewOf img21 (segMid c5p0 c5p1) (patchRadius c5p0 c5p1 1)).b1 +
      (viewOf img21 (segMid c5p0 c5p1) (patchRadius c5p0 c5p1 1)).l1 ∧
    (viewOf img21 (segMid c5p0 c5p1) (patchRadius c5p0 c5p1 1)).b2 ≤ 10 ∧
    (10 : ℤ) < (viewOf img21 (segMid c5p0 c5p1) (patchRadius c5p0 c5p1 1)).b2 +
      (viewOf img21 (segMid c5p0 c5p1) (patchRadius c5p0 c5p1 1)).l2 ∧
    (viewOf img21 (segMid c5p0 c5p1) (patchRadius c5p0 c5p1 1)).b3 ≤ 11 ∧
    (11 : ℤ) < (viewOf img21 (segMid c5p0 c5p1) (patchRadius c5p0 c5p1 1)).b3 +
      (viewOf img21 (segMid c5p0 c5p1) (patchRadius c5p0 c5p1 1)).l3 := by
  refine ⟨?_, ?_, ?_, ?_, ?_, ?_, ?_⟩
  · unfold dRCh
    simp [img21]
  · rw [c5_view_b1]; norm_num
  · rw [c5_view_b1, c5_view_l1]; norm_num
  · rw [c5_view_b2]; norm_num
  · rw [c5_view_b2, c5_view_l2]; norm_num
  · rw [c5_view_b3]; norm_num
  · rw [c5_view_b3, c5_view_l3]; norm_num

theorem c5_idx1 :
    (8 : ℤ) - (viewOf img21 (segMid c5p0 c5p1) (patchRadius c5p0 c5p1 1)).b1 = 1 := by
  rw [c5_view_b1]
  norm_num

theorem c5_idx2 :
    (10 : ℤ) - (viewOf img21 (segMid c5p0 c5p1) (patchRadius c5p0 c5p1 1)).b2 = 3 := by
  rw [c5_view_b2]
  norm_num

theorem c5_idx3 :
    (11 : ℤ) - (viewOf img21 (segMid c5p0 c5p1) (patchRadius c5p0 c5p1 1)).b3 = 3 := by
  rw [c5_view_b3]
  norm_num

theorem c5_d1 : c5step1.data 0 8 10 11 =
    dNewPatch img21 c5p0 c5p1 1 ⟨1, 3, 3⟩ / dAmax img21 c5p0 c5p1 1 := by
  show (dResult img21 c5p0 c5p1 1 false 0).data 0 8 10 11 = _
  rw [dResult_data_pos img21 c5p0 c5p1 1 false 0 0 8 10 11 c5_cond]
  rw [c5_idx1, c5_idx2, c5_idx3]
  rw [show img21.data 0 8 10 11 = 0 from rfl]
  unfold compost
  simp only [Bool.false_eq_true, if_false]
  exact max_eq_left (le_of_lt c5_n_pos)

theorem c5_d2 : c5step2.data 0 8 10 11 = 0 := by
  have hcond' : (0 : ℤ) = dRCh c5step1.C 0 ∧
      (viewOf c5step1 (segMid c5p0 c5p1) (patchRadius c5p0 c5p1 1)).b1 ≤ 8 ∧
      (8 : ℤ) < (viewOf c5step1 (segMid c5p0 c5p1) (patchRadius c5p0 c5p1 1)).b1 +
        (viewOf c5step1 (segMid c5p0 c5p1) (patchRadius c5p0 c5p1 1)).l1 ∧
      (viewOf c5step1 (segMid c5p0 c5p1) (patchRadius c5p0 c5p1 1)).b2 ≤ 10 ∧
      (10 : ℤ) < (viewOf c5step1 (segMid c5p0 c5p1) (patchRadius c5p0 c5p1 1)).b2 +
        (viewOf c5step1 (segMid c5p0 c5p1) (patchRadius c5p0 c5p1 1)).l2 ∧
      (viewOf c5step1 (segMid c5p0 c5p1) (patchRadius c5p0 c5p1 1)).b3 ≤ 11 ∧
      (11 : ℤ) < (viewOf c5step1 (segMid c5p0 c5p1) (patchRadius c5p0 c5p1 1)).b3 +
        (viewOf c5step1 (segMid c5p0 c5p1) (patchRadius c5p0 c5p1 1)).l3 :=
    c5_cond
  show (dResult c5step1 c5p0 c5p1 1 true 0).data 0 8 10 11 = 0
  rw [dResult_data_pos c5step1 c5p0 c5p1 1 true 0 0 8 10 11 hcond']
  show compost true
      (dNewPatch img21 c5p0 c5p1 1
          ⟨8 - (viewOf img21 (segMid c5p0 c5p1) (patchRadius c5p0 c5p1 1)).b1,
            10 - (viewOf img21 (segMid c5p0 c5p1) (patchRadius c5p0 c5p1 1)).b2,
            11 - (viewOf img21 (segMid c5p0 c5p1) (patchRadius c5p0 c5p1 1)).b3⟩ /
        dAmax img21 c5p0 c5p1 1)
      (c5step1.data 0 8 10 11) = 0
  rw [c5_idx1, c5_idx2, c5_idx3, c5_d1]
  unfold compost
  simp only [if_true]
  rw [max_self]
  rw [if_neg (not_lt.2 c5_n_le)]

/-- C5 counterexample: on the 1-channel 21×21×21 zero volume, first render
the segment (10,10,10)-(10,10,12), width 1, channel 0 with `binary=False`
(voxel (8,10,11), two cells off the line axis, gets a small positive
intensity); then render the identical segment with `binary=True`.  The
threshold at 0.68 (src/image.py:155-156) zeroes that voxel, so intensity
strictly DECREASES from one call to the next, refuting the claim that any
combination of binary flags is monotonic. -/
theorem C5_cex :
    img21.draw c5p0 c5p1 1 false 0 = some c5step1 ∧
    c5step1.draw c5p0 c5p1 1 true 0 = some c5step2 ∧
    c5step2.data 0 8 10 11 < c5step1.data 0 8 10 11 := by
  refine ⟨c5_draw1, c5_draw2, ?_⟩
  rw [c5_d1, c5_d2]
  exact c5_n_pos

/-- Witness for `C5_amended` at the concrete scenario. -/
theorem C5_amended_wit : img21.data 0 8 10 11 ≤ c5step1.data 0 8 10 11 :=
  C5_amended img21 c5p0 c5p1 1 0 c5step1 c5_draw1 0 8 10 11

/-- Witness for `C7_idempotent` at the concrete scenario. -/
theorem C7_idempotent_wit : c5step1.draw c5p0 c5p1 1 false 0 = some c5step1 :=
  C7_idempotent img21 c5p0 c5p1 1 false 0 c5step1 c5_draw1

/-- Witness for `C10_default_channel` at the concrete scenario. -/
theorem C10_default_channel_wit :
    c5step1.data 1 8 10 11 = img21.data 1 8 10 11 := by
  have hconj := C10_default_channel img21 c5p0 c5p1 1 false
  have hch0 : ((img21.C : ℤ) - 1) = 0 := by norm_num [img21]
  have hdraw : img21.draw c5p0 c5p1 1 false (-1) = some c5step1 := by
    rw [hconj.1, hch0]
    exact c5_draw1
  exact hconj.2 c5step1 hdraw 1 8 10 11 (by rw [hch0]; norm_num)

/-! ### The NaN-poisoned all-zero-patch run

Same 21³ volume; segment (-3,10,10)-(-3,10,12), width 1.  The buffer center
is (-3,10,11), so the crop pads 6 cells on the low side of axis 0 and the
trimmed working buffer keeps only x-row 6 of the edge-7 buffer — far from
the rasterized line at x = 3, and the clamped blur at x = 6 reads only
rows 4..6.  The trimmed buffer is therefore nonempty but identically zero:
`new_patch /= torch.amax(new_patch, dim=(0,1,2))` (src/image.py:150)
evaluates 0.0/0.0 = NaN, and `torch.maximum` (src/image.py:153) then writes
NaN over the whole target region `data[:, 0:1, 7:14, 8:15]` while the call
itself returns normally.  The real-valued model flags this poisoned run as
a failure: `draw` returns `none`. -/

/-- First endpoint of the poisoned-run segment. -/
noncomputable def z5p0 : P3 := ⟨-3, 10, 10⟩

/-- Second endpoint of the poisoned-run segment. -/
noncomputable def z5p1 : P3 := ⟨-3, 10, 12⟩

theorem z5_segLen : segLen z5p0 z5p1 = 2 := by
  have h : ((-3 : ℝ) - -3) ^ 2 + ((10 : ℝ) - 10) ^ 2 + ((10 : ℝ) - 12) ^ 2 =
      2 ^ 2 := by norm_num
  simp only [segLen, z5p0, z5p1]
  rw [h, Real.sqrt_sq (by norm_num : (0 : ℝ) ≤ 2)]

theorem z5_unitDir : unitDir z5p0 z5p1 = ⟨0, 0, -1⟩ := by
  simp only [unitDir, z5_segLen]
  simp only [z5p0, z5p1]
  norm_num

theorem z5_mid : segMid z5p0 z5p1 = ⟨-3, 10, 11⟩ := by
  simp only [segMid, z5p0, z5p1]
  norm_num

theorem z5_radius : patchRadius z5p0 z5p1 1 = 3 := by
  simp only [patchRadius, halfL, overhang, z5_segLen]
  rw [ceil_eval (show (2 : ℝ) / 2 = ((1 : ℤ) : ℝ) by norm_num),
    pyInt_eval (show (2 * 1 : ℝ) = ((2 : ℤ) : ℝ) by norm_num)]
  norm_num

theorem z5_ps : patchSize z5p0 z5p1 1 = 7 := by
  simp only [patchSize, z5_radius]
  norm_num

theorem z5_start : lineStart z5p0 z5p1 1 = ⟨3, 3, 1⟩ := by
  simp only [lineStart, z5_segLen, z5_unitDir, z5_radius, I3.mk.injEq]
  refine ⟨rhe_eval ?_, rhe_eval ?_, rhe_eval ?_⟩ <;> push_cast <;> norm_num

theorem z5_end : lineEnd z5p0 z5p1 1 = ⟨3, 3, 5⟩ := by
  simp only [lineEnd, z5_segLen, z5_unitDir, z5_radius, I3.mk.injEq]
  refine ⟨rhe_eval ?_, rhe_eval ?_, rhe_eval ?_⟩ <;> push_cast <;> norm_num

theorem z5_cells : lineCells z5p0 z5p1 1 =
    [⟨3, 3, 1⟩, ⟨3, 3, 2⟩, ⟨3, 3, 3⟩, ⟨3, 3, 4⟩, ⟨3, 3, 5⟩] := by
  have r1 : rheQ (1 : ℚ) = 1 := rheQ_eval (by norm_num)
  have r2 : rheQ (2 : ℚ) = 2 := rheQ_eval (by norm_num)
  have r3 : rheQ (3 : ℚ) = 3 := rheQ_eval (by norm_num)
  have r4 : rheQ (4 : ℚ) = 4 := rheQ_eval (by norm_num)
  have r5 : rheQ (5 : ℚ) = 5 := rheQ_eval (by norm_num)
  have hnp : lineNp (⟨3, 3, 1⟩ : I3) ⟨3, 3, 5⟩ = 5 := by decide
  unfold lineCells
  rw [z5_start, z5_end]
  simp only [lineNd]
  rw [hnp, c5_linspace_x, c5_linspace_z]
  simp only [List.map_cons, List.map_nil, r1, r2, r3, r4, r5]
  decide

theorem z5_oob : oobB (patchSize z5p0 z5p1 1) (lineCells z5p0 z5p1 1) = false := by
  rw [z5_ps, z5_cells]
  decide

theorem z5_pyInt_m3 : pyInt (-3 : ℝ) = -3 :=
  pyInt_eval (show (-3 : ℝ) = ((-3 : ℤ) : ℝ) by norm_num)

theorem z5_pads : padsOf img21 (segMid z5p0 z5p1) (patchRadius z5p0 z5p1 1) =
    ⟨6, 0, 0, 0, 0, 0⟩ := by
  rw [z5_mid, z5_radius]
  simp only [padsOf, img21, z5_pyInt_m3, c5_pyInt10, c5_pyInt11]
  decide

theorem z5_trim1 : dTrim1 img21 z5p0 z5p1 1 = 1 := by
  unfold dTrim1
  rw [z5_pads, z5_ps]
  decide

theorem z5_trim2 : dTrim2 img21 z5p0 z5p1 1 = 7 := by
  unfold dTrim2
  rw [z5_pads, z5_ps]
  decide

theorem z5_trim3 : dTrim3 img21 z5p0 z5p1 1 = 7 := by
  unfold dTrim3
  rw [z5_pads, z5_ps]
  decide

theorem z5_set : dSet img21 z5p0 z5p1 1 =
    Finset.Icc 0 0 ×ˢ (Finset.Icc 0 6 ×ˢ Finset.Icc 0 6) := by
  unfold dSet
  rw [z5_trim1, z5_trim2, z5_trim3]
  norm_num

theorem z5_nonempty : (dSet img21 z5p0 z5p1 1).Nonempty :=
  ⟨(0, (0, 0)), by rw [z5_set]; decide⟩

theorem z5_h1 : ¬segLen z5p0 z5p1 = 0 := by
  rw [z5_segLen]; norm_num

theorem z5_h2 : ¬oobB (patchSize z5p0 z5p1 1) (lineCells z5p0 z5p1 1) = true := by
  rw [z5_oob]; simp

theorem z5_raster (p : I3) : rasterX z5p0 z5p1 1 p =
    if p.x = 3 ∧ p.y = 3 ∧ 1 ≤ p.z ∧ p.z ≤ 5 then 1 else 0 := by
  obtain ⟨px, py, pz⟩ := p
  unfold rasterX
  rw [z5_cells, z5_ps]
  rw [show ([⟨3, 3, 1⟩, ⟨3, 3, 2⟩, ⟨3, 3, 3⟩, ⟨3, 3, 4⟩, ⟨3, 3, 5⟩] :
      List I3).map (wrap3 7) =
      [⟨3, 3, 1⟩, ⟨3, 3, 2⟩, ⟨3, 3, 3⟩, ⟨3, 3, 4⟩, ⟨3, 3, 5⟩] from by decide]
  simp only [List.mem_cons, List.not_mem_nil, or_false, I3.mk.injEq]
  have hiff : ((px = 3 ∧ py = 3 ∧ pz = 1) ∨ (px = 3 ∧ py = 3 ∧ pz = 2) ∨
      (px = 3 ∧ py = 3 ∧ pz = 3) ∨ (px = 3 ∧ py = 3 ∧ pz = 4) ∨
      (px = 3 ∧ py = 3 ∧ pz = 5)) ↔
      (px = 3 ∧ py = 3 ∧ 1 ≤ pz ∧ pz ≤ 5) := by omega
  rw [if_congr hiff rfl rfl]

theorem z5_F1 (b c : ℤ) :
    blur1 7 ((1 : ℝ) / 2) (rasterX z5p0 z5p1 1) ⟨6, b, c⟩ = 0 := by
  simp only [blur1]
  rw [c5_gRad, sumIcc22]
  norm_num [clampIdx, z5_raster]

theorem z5_F2 (b c : ℤ) :
    blur2 7 ((1 : ℝ) / 2)
      (blur1 7 ((1 : ℝ) / 2) (rasterX z5p0 z5p1 1)) ⟨6, b, c⟩ = 0 := by
  simp only [blur2]
  rw [c5_gRad, sumIcc22]
  norm_num [z5_F1]

theorem z5_F3 (b c : ℤ) :
    blur3 7 ((1 : ℝ) / 2)
      (blur2 7 ((1 : ℝ) / 2)
        (blur1 7 ((1 : ℝ) / 2) (rasterX z5p0 z5p1 1))) ⟨6, b, c⟩ = 0 := by
  simp only [blur3]
  rw [c5_gRad, sumIcc22]
  norm_num [z5_F2]

theorem z5_blur : blurred img21.dx 1 z5p0 z5p1 =
    blur3 7 ((1 : ℝ) / 2)
      (blur2 7 ((1 : ℝ) / 2)
        (blur1 7 ((1 : ℝ) / 2) (rasterX z5p0 z5p1 1))) := by
  simp only [blurred, z5_ps, img21]
  norm_num

theorem z5_np (y z : ℤ) : dNewPatch img21 z5p0 z5p1 1 ⟨0, y, z⟩ = 0 := by
  simp only [dNewPatch]
  rw [z5_pads, z5_ps, z5_blur]
  norm_num [pyIdx, z5_F3]

/-- `torch.amax` of the trimmed working buffer of the poisoned run is
exactly 0: every surviving row is identically zero. -/
theorem z5_amax : dAmax img21 z5p0 z5p1 1 = 0 := by
  unfold dAmax
  rw [dif_pos z5_nonempty]
  apply le_antisymm
  · apply Finset.sup'_le
    intro m hm
    rw [z5_set] at hm
    simp only [Finset.mem_product, Finset.mem_Icc] at hm
    have hx : m.1 = 0 := le_antisymm hm.1.2 hm.1.1
    rw [hx, z5_np]
  · have h := Finset.le_sup'
      (f := fun m : ℤ × ℤ × ℤ => dNewPatch img21 z5p0 z5p1 1 ⟨m.1, m.2.1, m.2.2⟩)
      (show ((0 : ℤ), ((0 : ℤ), (0 : ℤ))) ∈ dSet img21 z5p0 z5p1 1 from by
        rw [z5_set]; decide)
    calc (0 : ℝ) = dNewPatch img21 z5p0 z5p1 1 ⟨0, 0, 0⟩ := (z5_np 0 0).symm
      _ ≤ _ := h

/-- The poisoned run is flagged as a failure by the model: the torch call
returns normally but has overwritten `data[:, 0:1, 7:14, 8:15]` with NaN
(0.0/0.0 from `new_patch /= torch.amax(new_patch, ...)`). -/
theorem z5_draw : img21.draw z5p0 z5p1 1 false 0 = none := by
  rw [draw_eq, if_neg z5_h1, if_neg z5_h2, if_pos z5_nonempty, if_pos z5_amax]
